import Mathlib

/-!
# Verification of the codex-belya task/session/metrics core

Shallow embedding of the task store (`belya_agents/task_manager.py`), the
terminal-state watcher and completion-event consumer
(`belya_agents/head_belya.py`), the session store (`session_store.py`) and
the metrics/rate-limit warning engine (`tools/metrics_tools.py`).

Python dictionaries are modelled as ordered association lists with
first-match lookup, in-place replacement on key update and append on key
insertion, matching CPython dict semantics for the operations the code
uses.  JSON numbers are modelled as integers (the metrics code funnels
every number it stores through `int(...)`).  Timestamps are opaque strings
supplied explicitly by the caller (`_timestamp()` / `_now_iso()` become a
`now` parameter).
-/

namespace Belya

/-- JSON-compatible values, the payloads the Python code passes around. -/
inductive Jv where
  | null : Jv
  | bool (b : Bool) : Jv
  | num (n : Int) : Jv
  | str (s : String) : Jv
  | arr (xs : List Jv) : Jv
  | obj (fields : List (String × Jv)) : Jv
deriving Repr, Inhabited

/-- First-match lookup in an association list (Python `d.get(k)`). -/
def alGet : List (String × Jv) → String → Option Jv
  | [], _ => none
  | (k', v) :: rest, k => if k' = k then some v else alGet rest k

/-- Python `d[k] = v`: replace the first binding of `k` in place, else append. -/
def alSet (fs : List (String × Jv)) (k : String) (v : Jv) : List (String × Jv) :=
  match fs with
  | [] => [(k, v)]
  | (k', v') :: rest =>
      if k' = k then (k', v) :: rest else (k', v') :: alSet rest k v

/-- Python `d.setdefault(k, v)`: insert `v` only when `k` is absent. -/
def alSetdefault (fs : List (String × Jv)) (k : String) (v : Jv) : List (String × Jv) :=
  match alGet fs k with
  | some _ => fs
  | none => fs ++ [(k, v)]

/-- Lookup on a `Jv` that is expected to be an object (`d.get(k)`). -/
def jvGet (j : Jv) (k : String) : Option Jv :=
  match j with
  | .obj fs => alGet fs k
  | _ => none

/-- Key update on a `Jv` object; leaves non-objects unchanged. -/
def jvSet (j : Jv) (k : String) (v : Jv) : Jv :=
  match j with
  | .obj fs => .obj (alSet fs k v)
  | _ => j

/-- Path lookup through nested objects. -/
def jvPath (j : Jv) : List String → Option Jv
  | [] => some j
  | k :: rest =>
      match jvGet j k with
      | some v => jvPath v rest
      | none => none

theorem alGet_alSet_self (fs : List (String × Jv)) (k : String) (v : Jv) :
    alGet (alSet fs k v) k = some v := by
  induction fs with
  | nil => simp [alSet, alGet]
  | cons p rest ih =>
      obtain ⟨k', v'⟩ := p
      by_cases h : k' = k <;> simp [alSet, alGet, h, ih]

theorem alGet_alSet_ne (fs : List (String × Jv)) (k k' : String) (v : Jv)
    (h : k' ≠ k) : alGet (alSet fs k v) k' = alGet fs k' := by
  induction fs with
  | nil => simp [alSet, alGet, if_neg (Ne.symm h)]
  | cons p rest ih =>
      obtain ⟨k₀, v₀⟩ := p
      by_cases h0 : k₀ = k
      · subst h0
        simp [alSet, alGet, if_neg (Ne.symm h)]
      · simp [alSet, alGet, h0, ih]

theorem alGet_alSetdefault_present (fs : List (String × Jv)) (k : String) (v w : Jv)
    (h : alGet fs k = some w) : alSetdefault fs k v = fs := by
  simp [alSetdefault, h]

theorem alGet_append_of_none (fs gs : List (String × Jv)) (k : String)
    (h : alGet fs k = none) : alGet (fs ++ gs) k = alGet gs k := by
  induction fs with
  | nil => simp
  | cons p rest ih =>
      obtain ⟨k₀, v₀⟩ := p
      by_cases h0 : k₀ = k
      · simp [alGet, h0] at h
      · simp [alGet, h0] at h ⊢
        exact ih h

theorem alGet_alSetdefault_self (fs : List (String × Jv)) (k : String) (v : Jv) :
    ∃ w, alGet (alSetdefault fs k v) k = some w := by
  unfold alSetdefault
  cases h : alGet fs k with
  | some w => exact ⟨w, by simp [h]⟩
  | none => exact ⟨v, by rw [alGet_append_of_none _ _ _ h]; simp [alGet]⟩

theorem alGet_alSetdefault_ne (fs : List (String × Jv)) (k k' : String) (v : Jv)
    (h : k' ≠ k) : alGet (alSetdefault fs k v) k' = alGet fs k' := by
  unfold alSetdefault
  cases h0 : alGet fs k with
  | some w => rfl
  | none =>
      cases h1 : alGet fs k' with
      | some w =>
          induction fs with
          | nil => simp [alGet] at h1
          | cons p rest ih =>
              obtain ⟨k₀, v₀⟩ := p
              by_cases h2 : k₀ = k'
              · simp [alGet, h2] at h1 ⊢
                exact h1
              · simp [alGet, h2] at h1 ⊢
                by_cases h3 : k₀ = k
                · simp [alGet, h3] at h0
                · simp [alGet, h3] at h0
                  exact ih h0 h1
      | none =>
          rw [alGet_append_of_none _ _ _ h1]
          simp [alGet, if_neg (Ne.symm h)]

/-!
## TaskManager (`src/belya_agents/task_manager.py`)

The store is a JSON file; we model its content as `TasksFile`: either text
that fails `json.loads` (`invalid`) or a parsed JSON value.  Operations
that raise a Python exception before writing are modelled as `Except.error`
(the file write happens only on the success path in the source, so an
`.error` result leaves the file untouched).
-/

/-- Content of the backing `tasks.json` file. -/
inductive TasksFile where
  | invalid : TasksFile
  | parsed (v : Jv) : TasksFile

/-- `TaskManager.VALID_STATUSES`. -/
def VALID_STATUSES : List String := ["not_started", "in_progress", "completed", "failed"]

/-- `TaskManager._normalize_status`: `ValueError` on an unknown status name. -/
def normalizeStatus (status : String) : Except String String :=
  if status ∈ VALID_STATUSES then .ok status
  else .error ("Invalid task status " ++ status)

/-- `TaskManager._history_entry`: `timestamp` always, `status`/`note` only when truthy. -/
def historyEntry (now status note : String) : Jv :=
  Jv.obj ([("timestamp", Jv.str now)]
    ++ (if status ≠ "" then [("status", Jv.str status)] else [])
    ++ (if note ≠ "" then [("note", Jv.str note)] else []))

/-- `TaskManager._load_raw_tasks`: `JSONDecodeError` is caught and yields `[]`;
a parsed top-level dict whose `tasks` value is a list yields that list, any
other `tasks` value yields `[]`; a parsed non-dict top level raises
(`payload.get` on a non-dict), which nothing catches. -/
def loadRawTasks : TasksFile → Except String (List Jv)
  | .invalid => .ok []
  | .parsed (.obj fs) =>
      match alGet fs "tasks" with
      | some (.arr xs) => .ok xs
      | _ => .ok []
  | .parsed _ => .error "AttributeError: payload has no attribute get"

/-- `TaskManager._write_raw_tasks`: the file becomes `{"tasks": tasks}`. -/
def writeRawTasks (tasks : List Jv) : TasksFile :=
  .parsed (.obj [("tasks", Jv.arr tasks)])

/-- `Optional[str]` serialised by `TaskRecord.to_dict`. -/
def optStr : Option String → Jv
  | some s => .str s
  | none => .null

/-- `TaskRecord.to_dict` for a fresh record created by `add_task`. -/
def taskRecordDict (id agent description status createdAt updatedAt : String)
    (metadata : List (String × Jv)) (result error : Option String)
    (history : List Jv) : Jv :=
  Jv.obj [("id", Jv.str id), ("agent", Jv.str agent),
    ("description", Jv.str description), ("status", Jv.str status),
    ("created_at", Jv.str createdAt), ("updated_at", Jv.str updatedAt),
    ("metadata", Jv.obj metadata), ("result", optStr result),
    ("error", optStr error), ("history", Jv.arr history)]

/-- `TaskManager.add_task`.  `recordId` stands for `task_id or uuid4().hex`
(the caller-chosen id, or the generated one when none is given). -/
def add_task (now : String) (f : TasksFile) (agent description recordId : String)
    (metadata : List (String × Jv)) : Except String (String × TasksFile) :=
  if agent = "" then .error "agent must be provided"
  else if description = "" then .error "description must be provided"
  else do
    let record := taskRecordDict recordId agent description "not_started" now now
      metadata none none [historyEntry now "not_started" "Task created"]
    let tasks ← loadRawTasks f
    return (recordId, writeRawTasks (tasks ++ [record]))

/-- Python `dict.update`: assign every pair of `u` into `d` in order. -/
def dictUpdate (d u : List (String × Jv)) : List (String × Jv) :=
  u.foldl (fun acc p => alSet acc p.1 p.2) d

/-- Does `entry.get("id") == task_id` hold? (a non-string stored id never
equals the Python string `task_id`). -/
def entryIdMatches (fs : List (String × Jv)) (taskId : String) : Bool :=
  match alGet fs "id" with
  | some (.str s) => s = taskId
  | _ => false

/-- The in-place mutation `update_task_status` performs on the matching entry. -/
def applyStatusUpdate (now : String) (entry : List (String × Jv)) (normStatus : String)
    (note : Option String) (result error : Option String)
    (metadataUpdate : List (String × Jv)) : Except String Jv :=
  let debugNote := note.getD ""
  let fs1 := alSet entry "status" (Jv.str normStatus)
  let fs2 := alSet fs1 "updated_at" (Jv.str now)
  let fs3 := match result with
    | some r => alSet fs2 "result" (Jv.str r)
    | none => fs2
  let fs4 := match error with
    | some e => alSet fs3 "error" (Jv.str e)
    | none => fs3
  -- `if metadata_update:` — an empty patch dict is falsy and skipped
  let fs5 :=
    if metadataUpdate.isEmpty then fs4
    else
      -- `setdefault("metadata", {})`, non-dict replaced by `{}`, then `.update`
      let existingMeta := match alGet fs4 "metadata" with
        | some (.obj m) => m
        | _ => []
      alSet fs4 "metadata" (Jv.obj (dictUpdate existingMeta metadataUpdate))
  -- `entry.setdefault("history", []).append(...)`: appending to a non-list raises
  match alGet fs5 "history" with
  | some (.arr hs) =>
      .ok (.obj (alSet fs5 "history" (Jv.arr (hs ++ [historyEntry now normStatus debugNote]))))
  | none =>
      .ok (.obj (alSet fs5 "history" (Jv.arr [historyEntry now normStatus debugNote])))
  | some _ => .error "AttributeError: history has no attribute append"

/-- The `for entry in tasks` loop of `update_task_status`: mutate the first
entry whose id matches; report whether one was found.  `entry.get` on a
non-dict entry raises. -/
def updateFirst (now : String) (taskId normStatus : String) (note result error : Option String)
    (metadataUpdate : List (String × Jv)) :
    List Jv → Except String (List Jv × Bool)
  | [] => .ok ([], false)
  | entry :: rest =>
      match entry with
      | .obj fs =>
          if entryIdMatches fs taskId then do
            let e' ← applyStatusUpdate now fs normStatus note result error metadataUpdate
            .ok (e' :: rest, true)
          else do
            let (rest', found) ← updateFirst now taskId normStatus note result error metadataUpdate rest
            .ok (entry :: rest', found)
      | _ => .error "AttributeError: entry has no attribute get"

/-- `TaskManager.update_task_status`.  `KeyError` when no entry matches;
the store file is written only on success. -/
def update_task_status (now : String) (f : TasksFile) (taskId status : String)
    (note result error : Option String) (metadataUpdate : List (String × Jv)) :
    Except String TasksFile := do
  let normStatus ← normalizeStatus status
  let tasks ← loadRawTasks f
  let (tasks', found) ← updateFirst now taskId normStatus note result error metadataUpdate tasks
  if found then return writeRawTasks tasks'
  else .error ("Task " ++ taskId ++ " not found")

/-- The `for entry in tasks` loop of `get_task`. -/
def findEntry (taskId : String) : List Jv → Except String (Option Jv)
  | [] => .ok none
  | entry :: rest =>
      match entry with
      | .obj fs =>
          if entryIdMatches fs taskId then .ok (some (.obj fs))
          else findEntry taskId rest
      | _ => .error "AttributeError: entry has no attribute get"

/-- `TaskManager.get_task`. -/
def get_task (f : TasksFile) (taskId : String) : Except String (Option Jv) := do
  let tasks ← loadRawTasks f
  findEntry taskId tasks

/-- One entry survives the filters of `get_tasks` when every supplied filter
matches it. -/
def entryPassesFilters (fs : List (String × Jv)) (desiredStatus agentFilter : Option String) :
    Bool :=
  (match desiredStatus with
    | some s => match alGet fs "status" with
        | some (.str s') => s' = s
        | _ => false
    | none => true)
  && (match agentFilter with
    | some a => match alGet fs "agent" with
        | some (.str a') => a' = a
        | _ => false
    | none => true)

/-- The filtering loop of `get_tasks`. -/
def filterEntries (desiredStatus agentFilter : Option String) :
    List Jv → Except String (List Jv)
  | [] => .ok []
  | entry :: rest =>
      match entry with
      | .obj fs => do
          let tail ← filterEntries desiredStatus agentFilter rest
          if entryPassesFilters fs desiredStatus agentFilter then
            .ok (.obj fs :: tail)
          else
            .ok tail
      | _ => .error "AttributeError: entry has no attribute get"

/-- `TaskManager.get_tasks`: an empty-string filter is falsy and ignored,
a truthy status filter is validated first. -/
def get_tasks (f : TasksFile) (status agent : Option String) :
    Except String (List Jv) := do
  let desiredStatus ←
    match status with
    | some s => if s = "" then pure none else do
        let n ← normalizeStatus s
        pure (some n)
    | none => pure none
  let agentFilter : Option String :=
    match agent with
    | some a => if a = "" then none else some a
    | none => none
  let tasks ← loadRawTasks f
  filterEntries desiredStatus agentFilter tasks

/-- The comprehension of `clear_completed_tasks`: keep entries whose
status is not `"completed"`. -/
def filterActive : List Jv → Except String (List Jv)
  | [] => .ok []
  | entry :: rest =>
      match entry with
      | .obj fs => do
          let tail ← filterActive rest
          match alGet fs "status" with
          | some (.str "completed") => .ok tail
          | _ => .ok (.obj fs :: tail)
      | _ => .error "AttributeError: entry has no attribute get"

/-- `TaskManager.clear_completed_tasks`. -/
def clear_completed_tasks (f : TasksFile) : Except String TasksFile := do
  let tasks ← loadRawTasks f
  let active ← filterActive tasks
  return writeRawTasks active

theorem exceptBind_ok {α β ε : Type} (a : α) (f : α → Except ε β) :
    (Except.ok a : Except ε α) >>= f = f a := rfl

theorem exceptBind_error {α β ε : Type} (e : ε) (f : α → Except ε β) :
    (Except.error e : Except ε α) >>= f = .error e := rfl

theorem exceptPure_eq_ok {α ε : Type} (a : α) : (pure a : Except ε α) = .ok a := rfl

theorem alGet_alSet (fs : List (String × Jv)) (k k' : String) (v : Jv) :
    alGet (alSet fs k v) k' = if k' = k then some v else alGet fs k' := by
  by_cases h : k' = k
  · subst h; simp [alGet_alSet_self]
  · simp [h, alGet_alSet_ne fs k k' v h]

/-- The entry's `history` value, if present, is a list — the shape
`update_task_status` needs in order not to raise on `.append`. -/
def historyFieldOk (fs : List (String × Jv)) : Prop :=
  match alGet fs "history" with
  | some (.arr _) => True
  | none => True
  | some _ => False

theorem applyStatusUpdate_ok (now normStatus : String) (fs : List (String × Jv))
    (note result error : Option String) (metadataUpdate : List (String × Jv))
    (hh : historyFieldOk fs) :
    ∃ fs', applyStatusUpdate now fs normStatus note result error metadataUpdate =
        .ok (.obj fs')
      ∧ alGet fs' "status" = some (.str normStatus)
      ∧ alGet fs' "id" = alGet fs "id" := by
  unfold historyFieldOk at hh
  unfold applyStatusUpdate
  cases result <;> cases error <;>
    rcases hhist : alGet fs "history" with _ | ⟨_ | _ | _ | _ | hs | _⟩ <;>
      simp +decide [alGet_alSet, hhist] at hh ⊢ <;>
      by_cases hm : metadataUpdate.isEmpty <;>
        simp +decide [hm, alGet_alSet, hhist]

theorem updateFirst_found (now taskId normStatus : String)
    (note result error : Option String) (metadataUpdate : List (String × Jv))
    (tasks : List Jv) (e : Jv)
    (hfind : findEntry taskId tasks = .ok (some e))
    (hh : ∀ fs, e = .obj fs → historyFieldOk fs) :
    ∃ tasks' e', updateFirst now taskId normStatus note result error metadataUpdate tasks =
        .ok (tasks', true)
      ∧ findEntry taskId tasks' = .ok (some e')
      ∧ jvGet e' "status" = some (.str normStatus) := by
  induction tasks with
  | nil => simp [findEntry] at hfind
  | cons entry rest ih =>
      match entry with
      | .obj fs =>
          by_cases hmatch : entryIdMatches fs taskId
          · simp [findEntry, hmatch] at hfind
            obtain ⟨fs', hok, hstat, hid⟩ :=
              applyStatusUpdate_ok now normStatus fs note result error metadataUpdate
                (hh fs hfind.symm)
            refine ⟨Jv.obj fs' :: rest, .obj fs', ?_, ?_, ?_⟩
            · simp [updateFirst, hmatch, hok, exceptBind_ok]
            · have : entryIdMatches fs' taskId = true := by
                unfold entryIdMatches at hmatch ⊢
                rw [hid]; exact hmatch
              simp [findEntry, this]
            · simpa [jvGet] using hstat
          · simp only [findEntry, hmatch] at hfind
            simp only [Bool.false_eq_true, if_false] at hfind
            obtain ⟨tasks', e', hu, hf, hs⟩ := ih hfind
            refine ⟨Jv.obj fs :: tasks', e', ?_, ?_, hs⟩
            · simp [updateFirst, hmatch, hu, exceptBind_ok]
            · simp [findEntry, hmatch, hf]
      | .null | .bool _ | .num _ | .str _ | .arr _ =>
          simp [findEntry] at hfind

/-- The membership test `entry.get("status") == "completed"` used by the
cleanup filter (computed on well-shaped, dict-valued entries). -/
def entryIsCompleted (e : Jv) : Bool :=
  match e with
  | .obj fs =>
      match alGet fs "status" with
      | some (.str s) => s = "completed"
      | _ => false
  | _ => false

theorem filterActive_eq_filter (tasks : List Jv)
    (hobj : ∀ e ∈ tasks, ∃ fs, e = .obj fs) :
    filterActive tasks = .ok (tasks.filter (fun e => !entryIsCompleted e)) := by
  induction tasks with
  | nil => simp [filterActive]
  | cons entry rest ih =>
      obtain ⟨fs, hfs⟩ := hobj entry (by simp)
      subst hfs
      have hrest := ih (fun e he => hobj e (by simp [he]))
      cases hstat : alGet fs "status" with
      | none =>
          simp [filterActive, hrest, entryIsCompleted, hstat, List.filter, exceptBind_ok]
      | some v =>
          cases v with
          | str s =>
              by_cases hc : s = "completed" <;>
                simp [filterActive, hrest, entryIsCompleted, hstat, List.filter,
                  exceptBind_ok, hc]
          | null =>
              simp [filterActive, hrest, entryIsCompleted, hstat, List.filter, exceptBind_ok]
          | bool b =>
              simp [filterActive, hrest, entryIsCompleted, hstat, List.filter, exceptBind_ok]
          | num n =>
              simp [filterActive, hrest, entryIsCompleted, hstat, List.filter, exceptBind_ok]
          | arr xs =>
              simp [filterActive, hrest, entryIsCompleted, hstat, List.filter, exceptBind_ok]
          | obj gs =>
              simp [filterActive, hrest, entryIsCompleted, hstat, List.filter, exceptBind_ok]

/--
C3 counterexample: the claim says `completed`/`failed` are absorbing under
status updates, but `update_task_status` never inspects the current status:
on a store holding one `completed` task, updating it to `in_progress`
succeeds and the stored status becomes `in_progress`.
-/
theorem terminal_status_not_absorbing_counterexample :
    ∃ f' e, update_task_status "t1"
        (writeRawTasks [taskRecordDict "T1" "codex" "demo" "completed" "t0" "t0"
          [] none none [historyEntry "t0" "completed" ""]])
        "T1" "in_progress" none none none [] = .ok f'
      ∧ get_task f' "T1" = .ok (some e)
      ∧ jvGet e "status" = some (.str "in_progress") := by
  exact ⟨_, _, rfl, rfl, rfl⟩

/--
C3 (amended): `update_task_status` enforces no state machine — for an
existing task it applies *any* valid requested status regardless of the
current one (terminal statuses included); an unrecognized status name
fails with no mutation; and `clear_completed_tasks` removes exactly the
records whose status is `completed`, leaving all others.
-/
theorem update_status_ignores_terminality
    (now : String) (f : TasksFile) (taskId status : String)
    (note result error : Option String) (metadataUpdate : List (String × Jv)) :
    (status ∉ VALID_STATUSES →
      ∃ msg, update_task_status now f taskId status note result error metadataUpdate =
        .error msg)
    ∧ (∀ tasks e, status ∈ VALID_STATUSES →
        loadRawTasks f = .ok tasks →
        findEntry taskId tasks = .ok (some e) →
        (∀ fs, e = .obj fs → historyFieldOk fs) →
        ∃ f' e', update_task_status now f taskId status note result error metadataUpdate =
            .ok f'
          ∧ get_task f' taskId = .ok (some e')
          ∧ jvGet e' "status" = some (.str status))
    ∧ (∀ tasks, loadRawTasks f = .ok tasks →
        (∀ e ∈ tasks, ∃ fs, e = .obj fs) →
        clear_completed_tasks f = .ok (writeRawTasks (tasks.filter (fun e => !entryIsCompleted e)))) := by
  refine ⟨?_, ?_, ?_⟩
  · intro hinvalid
    refine ⟨"Invalid task status " ++ status, ?_⟩
    simp [update_task_status, normalizeStatus, hinvalid, exceptBind_error]
  · intro tasks e hvalid hload hfind hh
    obtain ⟨tasks', e', hu, hf, hs⟩ :=
      updateFirst_found now taskId status note result error metadataUpdate tasks e hfind hh
    refine ⟨writeRawTasks tasks', e', ?_, ?_, hs⟩
    · simp [update_task_status, normalizeStatus, hvalid, hload, hu, exceptBind_ok, exceptPure_eq_ok]
    · simp [get_task, writeRawTasks, loadRawTasks, alGet, exceptBind_ok, hf]
  · intro tasks hload hobj
    simp [clear_completed_tasks, hload, exceptBind_ok, filterActive_eq_filter tasks hobj]

/-- Witness for the amended C3 theorem: a concrete store with one completed
task, updated to `in_progress` through the theorem. -/
theorem update_status_ignores_terminality_witness :
    ∃ f' e', update_task_status "t1"
        (writeRawTasks [taskRecordDict "T2" "codex" "demo2" "completed" "t0" "t0"
          [] none none [historyEntry "t0" "completed" ""]])
        "T2" "in_progress" none none none [] = .ok f'
      ∧ get_task f' "T2" = .ok (some e')
      ∧ jvGet e' "status" = some (Jv.str "in_progress") := by
  have h := (update_status_ignores_terminality "t1"
    (writeRawTasks [taskRecordDict "T2" "codex" "demo2" "completed" "t0" "t0"
      [] none none [historyEntry "t0" "completed" ""]])
    "T2" "in_progress" none none none []).2.1
  exact h _ _ (by decide) rfl rfl
    (by rintro fs hfs; cases hfs; trivial)

/-- The file contents claim C10 covers: text that is invalid JSON, or a
top-level JSON dict whose `tasks` value is present but not a list. -/
def unreadableTasksFile (f : TasksFile) : Prop :=
  f = .invalid ∨ ∃ fs v, f = .parsed (.obj fs) ∧ alGet fs "tasks" = some v ∧ ∀ xs, v ≠ .arr xs

theorem loadRawTasks_unreadable (f : TasksFile) (h : unreadableTasksFile f) :
    loadRawTasks f = .ok [] := by
  rcases h with h | ⟨fs, v, hf, hv, hvarr⟩
  · subst h; rfl
  · subst hf
    cases v with
    | arr xs => exact absurd rfl (hvarr xs)
    | null => simp [loadRawTasks, hv]
    | bool b => simp [loadRawTasks, hv]
    | num n => simp [loadRawTasks, hv]
    | str s => simp [loadRawTasks, hv]
    | obj gs => simp [loadRawTasks, hv]

/--
C10 counterexample: the claim says the next mutating operation among
`add_task`, a status update, or bulk-cleanup rewrites the unreadable file
from the empty view; but on an unreadable file a status update finds no
matching task and raises `KeyError` *before* the write, leaving the file
untouched (the write sits on the success path only).
-/
theorem unreadable_update_no_rewrite_counterexample :
    update_task_status "t1" TasksFile.invalid "T1" "completed" none none none [] =
      .error "Task T1 not found" := rfl

/--
C10 (amended): with an invalid-JSON or non-list-`tasks` backing file,
every read behaves as if the store were empty (`get_task` is `none`,
listing is empty), `add_task` and `clear_completed_tasks` rewrite the file
from that empty view — permanently discarding the unreadable content —
while `update_task_status` instead fails with `KeyError` (no task matches
in the empty view) and performs no write.
-/
theorem unreadable_file_read_as_empty (f : TasksFile) (h : unreadableTasksFile f) :
    loadRawTasks f = .ok []
    ∧ (∀ tid, get_task f tid = .ok none)
    ∧ (∀ ag, get_tasks f none ag = .ok [])
    ∧ (∀ now agent description rid meta, agent ≠ "" → description ≠ "" →
        add_task now f agent description rid meta =
          .ok (rid, writeRawTasks [taskRecordDict rid agent description "not_started"
            now now meta none none [historyEntry now "not_started" "Task created"]]))
    ∧ clear_completed_tasks f = .ok (writeRawTasks [])
    ∧ (∀ now tid status note result error meta, ∃ msg,
        update_task_status now f tid status note result error meta = .error msg) := by
  have hload := loadRawTasks_unreadable f h
  refine ⟨hload, ?_, ?_, ?_, ?_, ?_⟩
  · intro tid
    simp [get_task, hload, exceptBind_ok, findEntry]
  · intro ag
    cases ag with
    | none => simp [get_tasks, hload, exceptBind_ok, filterEntries]
    | some a =>
        by_cases ha : a = "" <;>
          simp [get_tasks, hload, exceptBind_ok, filterEntries, ha]
  · intro now agent description rid meta hag hde
    simp [add_task, hag, hde, hload, exceptBind_ok, exceptPure_eq_ok]
  · simp [clear_completed_tasks, hload, exceptBind_ok, filterActive, exceptPure_eq_ok]
  · intro now tid status note result error meta
    by_cases hs : status ∈ VALID_STATUSES
    · refine ⟨"Task " ++ tid ++ " not found", ?_⟩
      simp [update_task_status, normalizeStatus, hs, hload, exceptBind_ok,
        updateFirst, exceptBind_error]
    · refine ⟨"Invalid task status " ++ status, ?_⟩
      simp [update_task_status, normalizeStatus, hs, exceptBind_error]

/-- Witness for the amended C10 theorem at the invalid-JSON file. -/
theorem unreadable_file_read_as_empty_witness :
    loadRawTasks TasksFile.invalid = .ok []
    ∧ (∀ tid, get_task TasksFile.invalid tid = .ok none)
    ∧ (∀ ag, get_tasks TasksFile.invalid none ag = .ok [])
    ∧ (∀ now agent description rid meta, agent ≠ "" → description ≠ "" →
        add_task now TasksFile.invalid agent description rid meta =
          .ok (rid, writeRawTasks [taskRecordDict rid agent description "not_started"
            now now meta none none [historyEntry now "not_started" "Task created"]]))
    ∧ clear_completed_tasks TasksFile.invalid = .ok (writeRawTasks [])
    ∧ (∀ now tid status note result error meta, ∃ msg,
        update_task_status now TasksFile.invalid tid status note result error meta =
          .error msg) :=
  unreadable_file_read_as_empty TasksFile.invalid (Or.inl rfl)

/-!
## SessionStore (`src/session_store.py`)

A session row mirrors one row of the `sessions` table.  The `metadata`
column always holds `json.dumps` of a Python dict (every write path
serialises a dict), so we model the parsed column directly as the dict's
fields.  SQL `UPDATE ... WHERE session_id = ?` updates every matching row,
`INSERT OR IGNORE` appends only when the key is absent, and reads take the
first match.
-/

/-- One row of the `sessions` table. -/
structure SessionRow where
  session_id : String
  branch_name : Option String
  metadata : List (String × Jv)
  created_at : String
  updated_at : String

/-- The two usage windows of `_default_metrics()`. -/
def defaultWindow : Jv :=
  .obj [("used", .num 0), ("limit", .null), ("remaining", .null), ("last_updated", .null)]

def defaultWarningsFields : List (String × Jv) :=
  [("five_hour", .arr []), ("weekly", .arr [])]

def defaultWarnings : Jv := .obj defaultWarningsFields

def defaultTokenUsageFields : List (String × Jv) :=
  [("total_tokens", .num 0), ("five_hour", defaultWindow),
    ("weekly", defaultWindow), ("warnings", defaultWarnings)]

def defaultTokenUsage : Jv := .obj defaultTokenUsageFields

/-- `_default_metrics()`. -/
def defaultMetricsFields : List (String × Jv) :=
  [("token_usage", defaultTokenUsage), ("last_task_tokens", .num 0), ("rate_limits", .obj [])]

def defaultMetrics : Jv := .obj defaultMetricsFields

/-- `_default_settings()`. -/
def defaultSettingsFields : List (String × Jv) :=
  [("approval_policy", .str "never"), ("model", .str "default")]

def defaultSettings : Jv := .obj defaultSettingsFields

/-- `_default_metadata()`. -/
def defaultMetadataFields : List (String × Jv) :=
  [("tasks", .arr []), ("metrics", defaultMetrics), ("settings", defaultSettings)]

/-- `isinstance(x, type(v))` for JSON values (`bool` is a subclass of `int`
in Python, so a stored `bool` passes an `int` check). -/
def pyIsinstanceSame (x v : Jv) : Bool :=
  match v, x with
  | .obj _, .obj _ => true
  | .arr _, .arr _ => true
  | .num _, .num _ => true
  | .num _, .bool _ => true
  | .str _, .str _ => true
  | .bool _, .bool _ => true
  | .null, .null => true
  | _, _ => false

/-- One iteration of `for key, value in default_metrics.items(): ...` in
`_ensure_metadata_defaults`. -/
def ensureStep (acc : List (String × Jv)) (kv : String × Jv) : List (String × Jv) :=
  match alGet acc kv.1 with
  | some w => if pyIsinstanceSame w kv.2 then acc else alSet acc kv.1 kv.2
  | none => alSet acc kv.1 kv.2

/-- The defaults loop of `_ensure_metadata_defaults` over the metrics dict. -/
def ensureDefaultsLoop (metrics : List (String × Jv)) : List (String × Jv) :=
  defaultMetricsFields.foldl ensureStep metrics

/-- The nested-warnings repair of `_ensure_metadata_defaults` applied to
the `token_usage` dict. -/
def fixWarnings (tu : List (String × Jv)) : List (String × Jv) :=
  let tu1 := alSetdefault tu "warnings" defaultWarnings
  match alGet tu1 "warnings" with
  | some (.obj wfs) =>
      alSet tu1 "warnings"
        (.obj (alSetdefault (alSetdefault wfs "five_hour" (.arr [])) "weekly" (.arr [])))
  | _ =>
      alSet tu1 "warnings" defaultWarnings

/-- The inner `token_usage` normalization of the metrics section. -/
def ensureTokenUsage (metrics1 : List (String × Jv)) : List (String × Jv) :=
  let metrics2 := alSetdefault metrics1 "token_usage" defaultTokenUsage
  match alGet metrics2 "token_usage" with
  | some (.obj tu) => alSet metrics2 "token_usage" (.obj (fixWarnings tu))
  | _ => metrics2

/-- The metrics section of `_ensure_metadata_defaults`: a non-dict metrics
slot is replaced wholesale, a dict one is repaired key by key. -/
def ensureMetricsSection (m1 : List (String × Jv)) : List (String × Jv) :=
  match alGet m1 "metrics" with
  | some (.obj metrics) =>
      alSet m1 "metrics" (.obj (ensureTokenUsage (ensureDefaultsLoop metrics)))
  | _ => alSet m1 "metrics" defaultMetrics

/-- The settings section of `_ensure_metadata_defaults`. -/
def ensureSettingsSection (m2 : List (String × Jv)) : List (String × Jv) :=
  match alGet m2 "settings" with
  | some (.obj settings) =>
      alSet m2 "settings" (.obj (defaultSettingsFields.foldl
        (fun acc kv => alSetdefault acc kv.1 kv.2) settings))
  | _ => alSet m2 "settings" defaultSettings

/-- `_ensure_metadata_defaults`. -/
def ensureMetadataDefaults (metadata : List (String × Jv)) : List (String × Jv) :=
  ensureSettingsSection (ensureMetricsSection (alSetdefault metadata "tasks" (.arr [])))

/-- `SELECT ... WHERE session_id = ?` (first match). -/
def findRow (store : List SessionRow) (sid : String) : Option SessionRow :=
  store.find? (fun r => r.session_id = sid)

/-- `SessionStore.session_exists`. -/
def session_exists (store : List SessionRow) (sid : String) : Bool :=
  (findRow store sid).isSome

/-- `UPDATE sessions SET metadata = ?, updated_at = ? WHERE session_id = ?`. -/
def setMetadataWhere (store : List SessionRow) (sid : String)
    (meta : List (String × Jv)) (now : String) : List SessionRow :=
  store.map (fun r =>
    if r.session_id = sid then { r with metadata := meta, updated_at := now } else r)

/-- `INSERT OR IGNORE INTO sessions ...`. -/
def insertOrIgnore (store : List SessionRow) (row : SessionRow) : List SessionRow :=
  if (findRow store row.session_id).isSome then store else store ++ [row]

/-- The shared row-fetch prologue of `append_entry` / `update_metrics` /
`record_usage_warning` / `update_settings`: a missing row yields default
metadata, `created_at = now` and a null branch; an existing row is
normalized by `_ensure_metadata_defaults`. -/
def fetchOrDefault (store : List SessionRow) (sid : String) (now : String) :
    List (String × Jv) × String × Option String :=
  match findRow store sid with
  | none => (defaultMetadataFields, now, none)
  | some row => (ensureMetadataDefaults row.metadata, row.created_at, row.branch_name)

/-!
`_deep_update`: recursively merge an updates dict into a target dict;
nested dicts merge key-by-key (`deepMergeVal`), every other value
overwrites.
-/
mutual

/-- The per-key merge of `_deep_update`: two dicts recurse, anything else
is overwritten by the update's value. -/
def deepMergeVal : Option Jv → Jv → Jv
  | some (.obj told), .obj uv => .obj (deepUpdateFields told uv)
  | _, v => v
termination_by o v => sizeOf v

/-- The key loop of `_deep_update` over the update dict's items. -/
def deepUpdateFields : List (String × Jv) → List (String × Jv) → List (String × Jv)
  | t, [] => t
  | t, (k, v) :: rest => deepUpdateFields (alSet t k (deepMergeVal (alGet t k) v)) rest
termination_by t u => sizeOf u

end

/-- `SessionStore.update_metrics`.  The `metrics` slot of a normalized
metadata dict is always a dict, so the error arm is unreachable; it stands
for the `AttributeError` Python would raise otherwise. -/
def update_metrics (now : String) (store : List SessionRow) (sid : String)
    (metricsUpdate : List (String × Jv)) : Except String (List SessionRow) :=
  let (metadata, createdAt, branch) := fetchOrDefault store sid now
  let metadata1 := alSetdefault metadata "metrics" defaultMetrics
  match alGet metadata1 "metrics" with
  | some (.obj storedMetrics) =>
      let metadata2 := alSet metadata1 "metrics"
        (.obj (deepUpdateFields storedMetrics metricsUpdate))
      let store1 := insertOrIgnore store ⟨sid, branch, metadata2, createdAt, now⟩
      .ok (setMetadataWhere store1 sid metadata2 now)
  | _ => .error "AttributeError: metrics is not a dict"

/-- `SessionStore.update_settings` (shallow `dict.update` on `settings`). -/
def update_settings (now : String) (store : List SessionRow) (sid : String)
    (settingsUpdate : List (String × Jv)) : Except String (List SessionRow) :=
  let (metadata, createdAt, branch) := fetchOrDefault store sid now
  let metadata1 := alSetdefault metadata "settings" defaultSettings
  match alGet metadata1 "settings" with
  | some (.obj settings) =>
      let metadata2 := alSet metadata1 "settings"
        (.obj (dictUpdate settings settingsUpdate))
      let store1 := insertOrIgnore store ⟨sid, branch, metadata2, createdAt, now⟩
      .ok (setMetadataWhere store1 sid metadata2 now)
  | _ => .error "AttributeError: settings is not a dict"

/-- `SessionStore.append_entry`: `if extra:` makes an empty or missing
extra dict falsy, so the `extra` key is only added when non-empty. -/
def append_entry (now : String) (store : List SessionRow) (sid : String)
    (prompt : String) (result : Option String) (entryType : String)
    (extra : Option (List (String × Jv))) : Except String (List SessionRow) :=
  let (metadata, createdAt, branch) := fetchOrDefault store sid now
  let entry := Jv.obj ([("prompt", .str prompt), ("result", optStr result),
    ("timestamp", .str now), ("type", .str entryType)]
    ++ (match extra with
        | some ex => if ex.isEmpty then [] else [("extra", Jv.obj ex)]
        | none => []))
  match alGet metadata "tasks" with
  | some (.arr ts) =>
      let metadata1 := alSet metadata "tasks" (.arr (ts ++ [entry]))
      let store1 := insertOrIgnore store ⟨sid, branch, metadata1, createdAt, now⟩
      .ok (setMetadataWhere store1 sid metadata1 now)
  | _ => .error "AttributeError: tasks has no attribute append"

/-- Python `threshold == x` for an element of a stored warning list
(`bool` compares as its integer value). -/
def pyEqNum (threshold : Int) : Jv → Bool
  | .num n => n = threshold
  | .bool b => (if b then (1 : Int) else 0) = threshold
  | _ => false

/-- All elements as integers, if the list is all-numeric. -/
def jvInts? : List Jv → Option (List Int)
  | [] => some []
  | .num n :: rest => (jvInts? rest).map (n :: ·)
  | _ => none

/-- `levels.append(threshold); levels.sort()` in `record_usage_warning`,
after `threshold not in levels` held.  Python's stable ascending sort on
integers is modelled by insertion sort (identical output); a stored
warning list holding non-numbers cannot be sorted and raises. -/
def appendAndSortLevels (lv : List Jv) (threshold : Int) : Except String (List Jv) :=
  match jvInts? lv with
  | some levels =>
      .ok ((List.insertionSort (· ≤ ·) (levels ++ [threshold])).map Jv.num)
  | none => .error "TypeError: cannot sort mixed warning levels"

/-- The membership-test-then-append-and-sort step on one warning list. -/
def pyRecordLevels (lv : List Jv) (threshold : Int) : Except String (List Jv) :=
  if lv.any (pyEqNum threshold) then .ok lv
  else appendAndSortLevels lv threshold

/-- `d.setdefault(k, dflt)` whose returned value the caller then uses as a
dict: yields the updated outer dict and the inner fields, raising when the
value is not a dict. -/
def setdefaultObj (fs : List (String × Jv)) (k : String) (dflt : Jv) :
    Except String (List (String × Jv) × List (String × Jv)) :=
  let fs1 := alSetdefault fs k dflt
  match alGet fs1 k with
  | some (.obj inner) => .ok (fs1, inner)
  | _ => .error ("AttributeError: " ++ k ++ " is not a dict")

/-- The metadata transformation of `record_usage_warning`: the
`setdefault` chain down to the warning-level list of the given window,
returning the mutated metadata dict (a malformed nesting raises). -/
def recordWarningMetadata (metadata : List (String × Jv)) (window : String)
    (threshold : Int) : Except String (List (String × Jv)) := do
  let (mfs1, metricsFs) ← setdefaultObj metadata "metrics" defaultMetrics
  let (metricsFs1, tuFs) ← setdefaultObj metricsFs "token_usage" defaultTokenUsage
  let (tuFs1, wFs) ← setdefaultObj tuFs "warnings" defaultWarnings
  let wFs1 := alSetdefault wFs window (.arr [])
  match alGet wFs1 window with
  | some (.arr lv) => do
      let newLv ← pyRecordLevels lv threshold
      let wFs2 := alSet wFs1 window (.arr newLv)
      let tuFs2 := alSet tuFs1 "warnings" (.obj wFs2)
      let metricsFs2 := alSet metricsFs1 "token_usage" (.obj tuFs2)
      .ok (alSet mfs1 "metrics" (.obj metricsFs2))
  | _ => .error "TypeError: warning levels are not a list"

/-- `SessionStore.record_usage_warning`.  An unknown window returns with
no read or write at all. -/
def record_usage_warning (now : String) (store : List SessionRow) (sid window : String)
    (threshold : Int) : Except String (List SessionRow) :=
  if window = "five_hour" ∨ window = "weekly" then
    let (metadata, createdAt, branch) := fetchOrDefault store sid now
    match recordWarningMetadata metadata window threshold with
    | .ok mfs2 =>
        let store1 := insertOrIgnore store ⟨sid, branch, mfs2, createdAt, now⟩
        .ok (setMetadataWhere store1 sid mfs2 now)
    | .error e => .error e
  else .ok store

/-- `SessionStore.rename_session`: equal ids short-circuit to `True`; a
taken target returns `False` with no write; otherwise every row keyed
`old` is re-keyed (`rowcount > 0` is the result) with `updated_at`
refreshed. -/
def rename_session (now : String) (store : List SessionRow) (oldId newId : String) :
    Bool × List SessionRow :=
  if oldId = newId then (true, store)
  else if (findRow store newId).isSome then (false, store)
  else
    (((store.filter (fun r => r.session_id = oldId)).length > 0 : Bool),
      store.map (fun r =>
        if r.session_id = oldId then { r with session_id := newId, updated_at := now }
        else r))

/-- `SessionStore.get_session` (normalize on read). -/
def get_session (store : List SessionRow) (sid : String) : Option SessionRow :=
  match findRow store sid with
  | none => none
  | some row => some { row with metadata := ensureMetadataDefaults row.metadata }

/-- `SessionStore.get_metrics`. -/
def get_metrics (store : List SessionRow) (sid : String) : Option Jv :=
  match get_session store sid with
  | none => none
  | some r => some ((alGet r.metadata "metrics").getD defaultMetrics)

theorem alGet_alSetdefault_preserves (fs : List (String × Jv)) (k k' : String) (v w : Jv)
    (h : alGet fs k' = some w) : alGet (alSetdefault fs k v) k' = some w := by
  by_cases hk : k' = k
  · subst hk; simp [alSetdefault, h]
  · rw [alGet_alSetdefault_ne fs k k' v hk]; exact h

theorem findRow_append_of_none (store gs : List SessionRow) (sid : String)
    (h : findRow store sid = none) : findRow (store ++ gs) sid = findRow gs sid := by
  induction store with
  | nil => simp
  | cons r rest ih =>
      by_cases h0 : r.session_id = sid
      · exfalso
        unfold findRow at h
        rw [List.find?_cons_of_pos _ (by simp [h0])] at h
        exact Option.noConfusion h
      · unfold findRow at h ih ⊢
        rw [List.cons_append, List.find?_cons_of_neg _ (by simp [h0])]
        rw [List.find?_cons_of_neg _ (by simp [h0])] at h
        exact ih h

theorem findRow_setMetadataWhere (store : List SessionRow) (sid : String)
    (m : List (String × Jv)) (now : String) :
    findRow (setMetadataWhere store sid m now) sid =
      (findRow store sid).map (fun r => { r with metadata := m, updated_at := now }) := by
  induction store with
  | nil => rfl
  | cons r rest ih =>
      by_cases h : r.session_id = sid
      · simp [setMetadataWhere, findRow, List.find?, h]
      · simp only [setMetadataWhere, List.map] at ih ⊢
        simp [findRow, List.find?, h] at ih ⊢
        exact ih

theorem findRow_insertOrIgnore_self (store : List SessionRow) (row : SessionRow) :
    findRow (insertOrIgnore store row) row.session_id =
      some ((findRow store row.session_id).getD row) := by
  unfold insertOrIgnore
  cases h : findRow store row.session_id with
  | some r => simp [h]
  | none =>
      rw [if_neg (by simp [h])]
      rw [findRow_append_of_none _ _ _ h]
      simp [findRow, List.find?]

theorem findRow_after_write (store : List SessionRow) (sid : String)
    (m : List (String × Jv)) (now : String) (row : SessionRow)
    (hrow : row.session_id = sid) :
    findRow (setMetadataWhere (insertOrIgnore store row) sid m now) sid =
      some { ((findRow store sid).getD row) with metadata := m, updated_at := now } := by
  rw [findRow_setMetadataWhere]
  have h := findRow_insertOrIgnore_self store row
  rw [hrow] at h
  rw [h]
  rfl

theorem alGet_ensureStep_ne (m : List (String × Jv)) (kv : String × Jv) (k' : String)
    (h : k' ≠ kv.1) : alGet (ensureStep m kv) k' = alGet m k' := by
  unfold ensureStep
  cases h0 : alGet m kv.1 with
  | some w =>
      by_cases hi : pyIsinstanceSame w kv.2 <;>
        simp [hi, alGet_alSet_ne _ _ _ _ h]
  | none => simp [alGet_alSet_ne _ _ _ _ h]

theorem ensureDefaultsLoop_preserves_token_usage (m tu : List (String × Jv))
    (h : alGet m "token_usage" = some (.obj tu)) :
    alGet (ensureDefaultsLoop m) "token_usage" = some (.obj tu) := by
  unfold ensureDefaultsLoop defaultMetricsFields
  simp only [List.foldl]
  have h1 : ensureStep m ("token_usage", defaultTokenUsage) = m := by
    unfold ensureStep
    simp [h, pyIsinstanceSame, defaultTokenUsage]
  rw [h1, alGet_ensureStep_ne _ _ _ (by decide), alGet_ensureStep_ne _ _ _ (by decide)]
  exact h

theorem alGet_fixWarnings_ne (tu : List (String × Jv)) (k : String)
    (h : k ≠ "warnings") : alGet (fixWarnings tu) k = alGet tu k := by
  have hsd : alGet (alSetdefault tu "warnings" defaultWarnings) k = alGet tu k :=
    alGet_alSetdefault_ne tu "warnings" k defaultWarnings h
  unfold fixWarnings
  cases h0 : alGet (alSetdefault tu "warnings" defaultWarnings) "warnings" with
  | none => simp [h0, alGet_alSet_ne _ _ _ _ h, hsd]
  | some w => cases w <;> simp [h0, alGet_alSet_ne _ _ _ _ h, hsd]

theorem fixWarnings_warnings_window (tu wfs : List (String × Jv)) (win : String) (v : Jv)
    (hw : alGet tu "warnings" = some (.obj wfs)) (hv : alGet wfs win = some v) :
    ∃ wfs', alGet (fixWarnings tu) "warnings" = some (.obj wfs')
      ∧ alGet wfs' win = some v := by
  have h1 : alSetdefault tu "warnings" defaultWarnings = tu :=
    alGet_alSetdefault_present _ _ _ _ hw
  refine ⟨alSetdefault (alSetdefault wfs "five_hour" (.arr [])) "weekly" (.arr []), ?_, ?_⟩
  · simp only [fixWarnings, h1, hw]
    exact alGet_alSet_self _ _ _
  · exact alGet_alSetdefault_preserves _ _ _ _ _
      (alGet_alSetdefault_preserves _ _ _ _ _ hv)

theorem alGet_ensureSettingsSection_ne (m2 : List (String × Jv)) (k : String)
    (h : k ≠ "settings") : alGet (ensureSettingsSection m2) k = alGet m2 k := by
  unfold ensureSettingsSection
  cases h0 : alGet m2 "settings" with
  | none => simp [alGet_alSet_ne _ _ _ _ h]
  | some w => cases w <;> simp [alGet_alSet_ne _ _ _ _ h]

theorem ensureSettingsSection_settings_obj (m2 : List (String × Jv)) :
    ∃ sf, alGet (ensureSettingsSection m2) "settings" = some (.obj sf) := by
  unfold ensureSettingsSection
  cases h0 : alGet m2 "settings" with
  | none => exact ⟨defaultSettingsFields, alGet_alSet_self _ _ _⟩
  | some w => cases w <;> exact ⟨_, alGet_alSet_self _ _ _⟩

theorem ensureMetricsSection_metrics_obj (m1 : List (String × Jv)) :
    ∃ mf, alGet (ensureMetricsSection m1) "metrics" = some (.obj mf) := by
  unfold ensureMetricsSection
  cases h0 : alGet m1 "metrics" with
  | none => exact ⟨defaultMetricsFields, alGet_alSet_self _ _ _⟩
  | some w => cases w <;> exact ⟨_, alGet_alSet_self _ _ _⟩

theorem ensure_metrics_is_obj (m : List (String × Jv)) :
    ∃ mf', alGet (ensureMetadataDefaults m) "metrics" = some (.obj mf') := by
  unfold ensureMetadataDefaults
  obtain ⟨mf, hmf⟩ := ensureMetricsSection_metrics_obj (alSetdefault m "tasks" (.arr []))
  refine ⟨mf, ?_⟩
  rw [alGet_ensureSettingsSection_ne _ _ (by decide)]
  exact hmf

theorem ensure_settings_is_obj (m : List (String × Jv)) :
    ∃ sf, alGet (ensureMetadataDefaults m) "settings" = some (.obj sf) := by
  unfold ensureMetadataDefaults
  exact ensureSettingsSection_settings_obj _

theorem ensure_metrics_token_usage (m mf tu : List (String × Jv))
    (hm : alGet m "metrics" = some (.obj mf))
    (htu : alGet mf "token_usage" = some (.obj tu)) :
    ∃ mf', alGet (ensureMetadataDefaults m) "metrics" = some (.obj mf')
      ∧ alGet mf' "token_usage" = some (.obj (fixWarnings tu)) := by
  unfold ensureMetadataDefaults
  have hm1 : alGet (alSetdefault m "tasks" (.arr [])) "metrics" = some (.obj mf) :=
    alGet_alSetdefault_preserves _ _ _ _ _ hm
  have hloop := ensureDefaultsLoop_preserves_token_usage mf tu htu
  have hsd : alSetdefault (ensureDefaultsLoop mf) "token_usage" defaultTokenUsage =
      ensureDefaultsLoop mf :=
    alGet_alSetdefault_present _ _ _ _ hloop
  have hsec : ensureMetricsSection (alSetdefault m "tasks" (.arr [])) =
      alSet (alSetdefault m "tasks" (.arr [])) "metrics"
        (.obj (alSet (ensureDefaultsLoop mf) "token_usage" (.obj (fixWarnings tu)))) := by
    unfold ensureMetricsSection ensureTokenUsage
    simp only [hm1, hsd, hloop]
  rw [hsec]
  refine ⟨alSet (ensureDefaultsLoop mf) "token_usage" (.obj (fixWarnings tu)), ?_, ?_⟩
  · rw [alGet_ensureSettingsSection_ne _ _ (by decide)]
    exact alGet_alSet_self _ _ _
  · exact alGet_alSet_self _ _ _

/--
C4 counterexample: `update_settings` on a store without session `S1`
returns successfully and creates the session — no `NotFound` error reaches
the caller, contradicting the claim that mutating operations on unknown
ids fail with `NotFound`.
-/
theorem sessionstore_unknown_id_upsert_counterexample :
    ∃ s, update_settings "t0" [] "S1" [("model", Jv.str "gpt-5")] = .ok s
      ∧ session_exists s "S1" = true :=
  ⟨_, rfl, rfl⟩

/--
C4 (amended): the SessionStore mutators are upserts — called with an
unknown session id, `update_metrics`, `update_settings`, `append_entry`
and `record_usage_warning` all succeed, implicitly creating the session
with defaulted metadata and applying the mutation; no error is surfaced
for an unknown id.
-/
theorem sessionstore_mutators_upsert (now sid : String) (store : List SessionRow)
    (h : findRow store sid = none)
    (metricsUpd settingsUpd : List (String × Jv)) (prompt : String)
    (result : Option String) (entryType : String)
    (extra : Option (List (String × Jv))) (threshold : Int) :
    (∃ s, update_metrics now store sid metricsUpd = .ok s
      ∧ session_exists s sid = true)
    ∧ (∃ s, update_settings now store sid settingsUpd = .ok s
      ∧ session_exists s sid = true)
    ∧ (∃ s, append_entry now store sid prompt result entryType extra = .ok s
      ∧ session_exists s sid = true)
    ∧ (∃ s, record_usage_warning now store sid "five_hour" threshold = .ok s
      ∧ session_exists s sid = true) := by
  have exists_after : ∀ (m2 : List (String × Jv)),
      session_exists (setMetadataWhere (insertOrIgnore store ⟨sid, none, m2, now, now⟩)
        sid m2 now) sid = true := by
    intro m2
    unfold session_exists
    rw [findRow_after_write store sid _ now _ rfl]
    rfl
  refine ⟨?_, ?_, ?_, ?_⟩
  · have heq : update_metrics now store sid metricsUpd =
        .ok (setMetadataWhere (insertOrIgnore store ⟨sid, none,
            alSet defaultMetadataFields "metrics"
              (.obj (deepUpdateFields defaultMetricsFields metricsUpd)), now, now⟩) sid
          (alSet defaultMetadataFields "metrics"
            (.obj (deepUpdateFields defaultMetricsFields metricsUpd))) now) := by
      unfold update_metrics fetchOrDefault
      rw [h]
      rfl
    exact ⟨_, heq, exists_after _⟩
  · have heq : update_settings now store sid settingsUpd =
        .ok (setMetadataWhere (insertOrIgnore store ⟨sid, none,
            alSet defaultMetadataFields "settings"
              (.obj (dictUpdate defaultSettingsFields settingsUpd)), now, now⟩) sid
          (alSet defaultMetadataFields "settings"
            (.obj (dictUpdate defaultSettingsFields settingsUpd))) now) := by
      unfold update_settings fetchOrDefault
      rw [h]
      rfl
    exact ⟨_, heq, exists_after _⟩
  · have heq : append_entry now store sid prompt result entryType extra =
        .ok (setMetadataWhere (insertOrIgnore store ⟨sid, none,
            alSet defaultMetadataFields "tasks" (.arr ([] ++ [Jv.obj
              ([("prompt", .str prompt), ("result", optStr result),
                ("timestamp", .str now), ("type", .str entryType)]
              ++ (match extra with
                  | some ex => if ex.isEmpty then [] else [("extra", Jv.obj ex)]
                  | none => []))])), now, now⟩) sid
          (alSet defaultMetadataFields "tasks" (.arr ([] ++ [Jv.obj
            ([("prompt", .str prompt), ("result", optStr result),
              ("timestamp", .str now), ("type", .str entryType)]
            ++ (match extra with
                | some ex => if ex.isEmpty then [] else [("extra", Jv.obj ex)]
                | none => []))]))) now) := by
      unfold append_entry fetchOrDefault
      rw [h]
      rfl
    exact ⟨_, heq, exists_after _⟩
  · have heq : record_usage_warning now store sid "five_hour" threshold =
        .ok (setMetadataWhere (insertOrIgnore store ⟨sid, none,
            alSet defaultMetadataFields "metrics" (.obj
              (alSet defaultMetricsFields "token_usage" (.obj
                (alSet defaultTokenUsageFields "warnings" (.obj
                  (alSet defaultWarningsFields "five_hour"
                    (.arr [Jv.num threshold]))))))), now, now⟩) sid
          (alSet defaultMetadataFields "metrics" (.obj
            (alSet defaultMetricsFields "token_usage" (.obj
              (alSet defaultTokenUsageFields "warnings" (.obj
                (alSet defaultWarningsFields "five_hour"
                  (.arr [Jv.num threshold])))))))) now) := by
      unfold record_usage_warning fetchOrDefault
      rw [h]
      rfl
    exact ⟨_, heq, exists_after _⟩

/-- Witness for the amended C4 theorem on the empty store. -/
theorem sessionstore_mutators_upsert_witness :
    (∃ s, update_metrics "t0" [] "S1" [] = .ok s ∧ session_exists s "S1" = true)
    ∧ (∃ s, update_settings "t0" [] "S1" [] = .ok s ∧ session_exists s "S1" = true)
    ∧ (∃ s, append_entry "t0" [] "S1" "p" none "task" none = .ok s
      ∧ session_exists s "S1" = true)
    ∧ (∃ s, record_usage_warning "t0" [] "S1" "five_hour" 80 = .ok s
      ∧ session_exists s "S1" = true) :=
  sessionstore_mutators_upsert "t0" "S1" [] rfl [] [] "p" none "task" none 80

/-- The stored warning list of one window for one session, read straight
off the persisted row. -/
def warningsAt (store : List SessionRow) (sid window : String) : Option Jv :=
  match findRow store sid with
  | none => none
  | some r => jvPath (.obj r.metadata) ["metrics", "token_usage", "warnings", window]

theorem jvInts?_eq_map (lv : List Jv) (levels : List Int)
    (h : jvInts? lv = some levels) : lv = levels.map Jv.num := by
  induction lv generalizing levels with
  | nil =>
      simp [jvInts?] at h
      subst h; rfl
  | cons x rest ih =>
      cases x with
      | num n =>
          simp only [jvInts?, Option.map_eq_some'] at h
          obtain ⟨tail, htail, hcons⟩ := h
          subst hcons
          simp [ih tail htail]
      | null | bool b | str s | arr xs | obj fs => simp [jvInts?] at h

theorem pyRecordLevels_any (lv newLv : List Jv) (t : Int)
    (h : pyRecordLevels lv t = .ok newLv) : newLv.any (pyEqNum t) = true := by
  unfold pyRecordLevels appendAndSortLevels at h
  by_cases hmem : lv.any (pyEqNum t)
  · rw [if_pos hmem] at h
    cases h
    exact hmem
  · rw [if_neg hmem] at h
    cases hints : jvInts? lv with
    | none => rw [hints] at h; exact absurd h (by simp)
    | some levels =>
        rw [hints] at h
        cases h
        refine List.any_eq_true.mpr ⟨Jv.num t, ?_, by simp [pyEqNum]⟩
        refine List.mem_map_of_mem _ ?_
        rw [List.mem_insertionSort]
        simp

theorem pyRecordLevels_stable (lv : List Jv) (t : Int)
    (h : lv.any (pyEqNum t) = true) : pyRecordLevels lv t = .ok lv := by
  unfold pyRecordLevels
  rw [if_pos h]

theorem pyRecordLevels_length (lv newLv : List Jv) (t : Int)
    (h : pyRecordLevels lv t = .ok newLv) : lv.length ≤ newLv.length := by
  unfold pyRecordLevels appendAndSortLevels at h
  by_cases hmem : lv.any (pyEqNum t)
  · rw [if_pos hmem] at h
    cases h
    exact le_refl _
  · rw [if_neg hmem] at h
    cases hints : jvInts? lv with
    | none => rw [hints] at h; exact absurd h (by simp)
    | some levels =>
        rw [hints] at h
        cases h
        rw [List.length_map, List.length_insertionSort, List.length_append,
          jvInts?_eq_map lv levels hints, List.length_map]
        simp

theorem pyRecordLevels_nodup (lv newLv : List Jv) (t : Int)
    (h : pyRecordLevels lv t = .ok newLv) (hnd : lv.Nodup) : newLv.Nodup := by
  unfold pyRecordLevels appendAndSortLevels at h
  by_cases hmem : lv.any (pyEqNum t)
  · rw [if_pos hmem] at h
    cases h
    exact hnd
  · rw [if_neg hmem] at h
    cases hints : jvInts? lv with
    | none => rw [hints] at h; exact absurd h (by simp)
    | some levels =>
        rw [hints] at h
        cases h
        have hlv := jvInts?_eq_map lv levels hints
        have hinj : Function.Injective Jv.num := fun a b hab => by
          injection hab
        have hnl : levels.Nodup := by
          rw [hlv] at hnd
          exact hnd.of_map
        have ht : t ∉ levels := by
          intro hmem'
          apply hmem
          rw [hlv]
          exact List.any_eq_true.mpr
            ⟨Jv.num t, List.mem_map_of_mem _ hmem', by simp [pyEqNum]⟩
        have happ : (levels ++ [t]).Nodup := by
          rw [List.nodup_append]
          exact ⟨hnl, List.nodup_singleton t, by simpa using ht⟩
        have hperm := List.perm_insertionSort (· ≤ ·) (levels ++ [t])
        exact (hperm.nodup_iff.mpr happ).map hinj

theorem setdefaultObj_ok (fs fs1 inner : List (String × Jv)) (k : String) (dflt : Jv)
    (h : setdefaultObj fs k dflt = .ok (fs1, inner)) :
    fs1 = alSetdefault fs k dflt ∧ alGet fs1 k = some (.obj inner) := by
  simp only [setdefaultObj] at h
  cases h0 : alGet (alSetdefault fs k dflt) k with
  | none => rw [h0] at h; exact absurd h (by simp)
  | some w =>
      rw [h0] at h
      cases w with
      | obj inner' =>
          simp only [Except.ok.injEq, Prod.mk.injEq] at h
          obtain ⟨h1, h2⟩ := h
          subst h1; subst h2
          exact ⟨rfl, h0⟩
      | null | bool b | num n | str s | arr xs => exact absurd h (by simp)

theorem setdefaultObj_of_get (fs inner : List (String × Jv)) (k : String) (dflt : Jv)
    (h : alGet fs k = some (.obj inner)) :
    setdefaultObj fs k dflt = .ok (fs, inner) := by
  simp only [setdefaultObj]
  rw [alGet_alSetdefault_present fs k dflt _ h, h]

theorem recordWarningMetadata_ok (metadata mfs2 : List (String × Jv)) (window : String)
    (threshold : Int)
    (h : recordWarningMetadata metadata window threshold = .ok mfs2) :
    ∃ metricsFs2 tuFs2 wFs2 newLv,
      alGet mfs2 "metrics" = some (.obj metricsFs2)
      ∧ alGet metricsFs2 "token_usage" = some (.obj tuFs2)
      ∧ alGet tuFs2 "warnings" = some (.obj wFs2)
      ∧ alGet wFs2 window = some (.arr newLv)
      ∧ newLv.any (pyEqNum threshold) = true := by
  unfold recordWarningMetadata at h
  cases hA : setdefaultObj metadata "metrics" defaultMetrics with
  | error e => rw [hA] at h; exact absurd h (by simp [exceptBind_error])
  | ok p1 =>
      obtain ⟨mfs1, metricsFs⟩ := p1
      rw [hA] at h
      rw [exceptBind_ok] at h
      dsimp only at h
      cases hB : setdefaultObj metricsFs "token_usage" defaultTokenUsage with
      | error e => rw [hB] at h; exact absurd h (by simp [exceptBind_error])
      | ok p2 =>
          obtain ⟨metricsFs1, tuFs⟩ := p2
          rw [hB] at h
          rw [exceptBind_ok] at h
          dsimp only at h
          cases hC : setdefaultObj tuFs "warnings" defaultWarnings with
          | error e => rw [hC] at h; exact absurd h (by simp [exceptBind_error])
          | ok p3 =>
              obtain ⟨tuFs1, wFs⟩ := p3
              rw [hC] at h
              rw [exceptBind_ok] at h
              dsimp only at h
              cases hD : alGet (alSetdefault wFs window (.arr [])) window with
              | none => rw [hD] at h; exact absurd h (by simp)
              | some w =>
                  rw [hD] at h
                  cases w with
                  | arr lv =>
                      dsimp only at h
                      cases hE : pyRecordLevels lv threshold with
                      | error e =>
                          rw [hE] at h
                          exact absurd h (by simp [exceptBind_error])
                      | ok newLv =>
                          rw [hE, exceptBind_ok] at h
                          simp only [Except.ok.injEq] at h
                          subst h
                          exact ⟨_, _, _, newLv,
                            alGet_alSet_self _ _ _, alGet_alSet_self _ _ _,
                            alGet_alSet_self _ _ _, alGet_alSet_self _ _ _,
                            pyRecordLevels_any lv newLv threshold hE⟩
                  | null | bool b | num n | str s | obj gs =>
                      exact absurd h (by simp)

theorem recordWarningMetadata_stable (metadata metricsFs tuFs wFs : List (String × Jv))
    (lv : List Jv) (window : String) (threshold : Int)
    (hm : alGet metadata "metrics" = some (.obj metricsFs))
    (htu : alGet metricsFs "token_usage" = some (.obj tuFs))
    (hw : alGet tuFs "warnings" = some (.obj wFs))
    (hlv : alGet wFs window = some (.arr lv))
    (hmem : lv.any (pyEqNum threshold) = true) :
    ∃ mfs2, recordWarningMetadata metadata window threshold = .ok mfs2
      ∧ ∃ metricsFs2 tuFs2 wFs2,
        alGet mfs2 "metrics" = some (.obj metricsFs2)
        ∧ alGet metricsFs2 "token_usage" = some (.obj tuFs2)
        ∧ alGet tuFs2 "warnings" = some (.obj wFs2)
        ∧ alGet wFs2 window = some (.arr lv) := by
  unfold recordWarningMetadata
  rw [setdefaultObj_of_get _ _ _ _ hm, exceptBind_ok]
  dsimp only
  rw [setdefaultObj_of_get _ _ _ _ htu, exceptBind_ok]
  dsimp only
  rw [setdefaultObj_of_get _ _ _ _ hw, exceptBind_ok]
  dsimp only
  rw [alGet_alSetdefault_present _ _ _ _ hlv, hlv]
  dsimp only
  rw [pyRecordLevels_stable lv threshold hmem, exceptBind_ok]
  exact ⟨_, rfl, _, _, _,
    alGet_alSet_self _ _ _, alGet_alSet_self _ _ _,
    alGet_alSet_self _ _ _, alGet_alSet_self _ _ _⟩

/--
C5: `record_usage_warning` is idempotent — after one successful call, a
second call with the same session id, window and threshold succeeds and
leaves the stored warning list exactly as the first call left it (e.g.
`[80]`, not `[80, 80]`); moreover one recording step never shortens a
warning list and preserves each-threshold-at-most-once (no duplicates).
-/
theorem record_usage_warning_idempotent :
    (∀ now1 now2 store sid window threshold s1,
      record_usage_warning now1 store sid window threshold = .ok s1 →
      ∃ s2, record_usage_warning now2 s1 sid window threshold = .ok s2
        ∧ warningsAt s2 sid window = warningsAt s1 sid window)
    ∧ (∀ lv newLv t, pyRecordLevels lv t = .ok newLv →
      lv.length ≤ newLv.length ∧ (lv.Nodup → newLv.Nodup)) := by
  constructor
  · intro now1 now2 store sid window threshold s1 h1
    by_cases hwin : window = "five_hour" ∨ window = "weekly"
    · unfold record_usage_warning at h1
      rw [if_pos hwin] at h1
      rcases hfetch : fetchOrDefault store sid now1 with ⟨metadata, createdAt, branch⟩
      rw [hfetch] at h1
      dsimp only at h1
      cases hrm : recordWarningMetadata metadata window threshold with
      | error e => rw [hrm] at h1; exact absurd h1 (by simp)
      | ok mfs2 =>
          rw [hrm] at h1
          dsimp only at h1
          simp only [Except.ok.injEq] at h1
          subst h1
          obtain ⟨metricsFs2, tuFs2, wFs2, newLv, hm2, htu2, hw2, hlv2, hmem2⟩ :=
            recordWarningMetadata_ok metadata mfs2 window threshold hrm
          set S1 := setMetadataWhere (insertOrIgnore store
            ⟨sid, branch, mfs2, createdAt, now1⟩) sid mfs2 now1 with hS1
          have hfind1 : ∃ r1, findRow S1 sid = some r1 ∧ r1.metadata = mfs2 := by
            rw [hS1]
            exact ⟨_, findRow_after_write store sid mfs2 now1 _ rfl, rfl⟩
          obtain ⟨r1, hfind1, hmeta1⟩ := hfind1
          have hfetch2 : fetchOrDefault S1 sid now2 =
              (ensureMetadataDefaults mfs2, r1.created_at, r1.branch_name) := by
            unfold fetchOrDefault
            rw [hfind1]
            dsimp only
            rw [hmeta1]
          obtain ⟨mf', hmf', htuf'⟩ :=
            ensure_metrics_token_usage mfs2 metricsFs2 tuFs2 hm2 htu2
          obtain ⟨wfs', hwf', hvw'⟩ :=
            fixWarnings_warnings_window tuFs2 wFs2 window (.arr newLv) hw2 hlv2
          obtain ⟨mfs2', hok', metricsFs2', tuFs2', wFs2', hm2', htu2', hw2', hlv2'⟩ :=
            recordWarningMetadata_stable (ensureMetadataDefaults mfs2) mf'
              (fixWarnings tuFs2) wfs' newLv window threshold hmf' htuf' hwf' hvw' hmem2
          have hcall2 : record_usage_warning now2 S1 sid window threshold =
              .ok (setMetadataWhere (insertOrIgnore S1
                ⟨sid, r1.branch_name, mfs2', r1.created_at, now2⟩) sid mfs2' now2) := by
            unfold record_usage_warning
            rw [if_pos hwin, hfetch2]
            dsimp only
            rw [hok']
          refine ⟨_, hcall2, ?_⟩
          have hfind2 := findRow_after_write S1 sid mfs2' now2
            ⟨sid, r1.branch_name, mfs2', r1.created_at, now2⟩ rfl
          unfold warningsAt
          rw [hfind2, hfind1]
          dsimp only
          simp [jvPath, jvGet, hm2', htu2', hw2', hlv2', hmeta1, hm2, htu2, hw2, hlv2]
    · unfold record_usage_warning at h1 ⊢
      rw [if_neg hwin] at h1
      rw [if_neg hwin]
      cases h1
      exact ⟨store, rfl, rfl⟩
  · intro lv newLv t h
    exact ⟨pyRecordLevels_length lv newLv t h, pyRecordLevels_nodup lv newLv t h⟩

/-- The metadata the demo first call below writes: default metadata with
`[80]` recorded in the five-hour warning list. -/
def demoWarnMetadata : List (String × Jv) :=
  alSet defaultMetadataFields "metrics" (.obj
    (alSet defaultMetricsFields "token_usage" (.obj
      (alSet defaultTokenUsageFields "warnings" (.obj
        (alSet defaultWarningsFields "five_hour" (.arr [Jv.num 80])))))))

/-- Witness for C5: recording threshold 80 for `five_hour` on a fresh
session yields `warnings.five_hour = [80]`, and a second identical call
leaves it unchanged. -/
theorem record_usage_warning_idempotent_witness :
    record_usage_warning "t0" [] "S1" "five_hour" 80 =
      .ok [⟨"S1", none, demoWarnMetadata, "t0", "t0"⟩]
    ∧ warningsAt [⟨"S1", none, demoWarnMetadata, "t0", "t0"⟩] "S1" "five_hour" =
      some (.arr [Jv.num 80])
    ∧ ∃ s2, record_usage_warning "t1" [⟨"S1", none, demoWarnMetadata, "t0", "t0"⟩]
        "S1" "five_hour" 80 = .ok s2
      ∧ warningsAt s2 "S1" "five_hour" =
        warningsAt [⟨"S1", none, demoWarnMetadata, "t0", "t0"⟩] "S1" "five_hour" :=
  ⟨rfl, rfl,
    record_usage_warning_idempotent.1 "t0" "t1" [] "S1" "five_hour" 80 _ rfl⟩

theorem deepUpdateFields_nil (t : List (String × Jv)) : deepUpdateFields t [] = t := by
  unfold deepUpdateFields
  rfl

theorem deepUpdateFields_cons (t : List (String × Jv)) (k : String) (v : Jv)
    (rest : List (String × Jv)) :
    deepUpdateFields t ((k, v) :: rest) =
      deepUpdateFields (alSet t k (deepMergeVal (alGet t k) v)) rest := by
  rw [deepUpdateFields]

theorem deepMergeVal_eq (o : Option Jv) (v : Jv) :
    deepMergeVal o v = match o, v with
      | some (.obj told), .obj uv => Jv.obj (deepUpdateFields told uv)
      | _, _ => v := by
  cases o with
  | none => cases v <;> simp [deepMergeVal]
  | some w => cases w <;> cases v <;> simp [deepMergeVal]

/-- One `_deep_update` with `{"token_usage": {win: {"used": n}}}`:
the window's `used` becomes `n`, and every other key of the `token_usage`
dict keeps its value. -/
theorem deepUpdateFields_window (m : List (String × Jv)) (win : String) (n : Int) :
    ∃ tu', alGet (deepUpdateFields m
        [("token_usage", Jv.obj [(win, Jv.obj [("used", Jv.num n)])])]) "token_usage" =
          some (.obj tu')
      ∧ (∃ fh', alGet tu' win = some (.obj fh') ∧ alGet fh' "used" = some (.num n))
      ∧ (∀ k, k ≠ win → ∀ told, alGet m "token_usage" = some (.obj told) →
          alGet tu' k = alGet told k) := by
  rw [deepUpdateFields_cons, deepUpdateFields_nil]
  cases htu : alGet m "token_usage" with
  | none =>
      rw [deepMergeVal_eq]
      dsimp only
      refine ⟨[(win, Jv.obj [("used", Jv.num n)])], alGet_alSet_self _ _ _,
        ⟨[("used", Jv.num n)], by simp [alGet], by simp [alGet]⟩, ?_⟩
      intro k hk told htold
      exact absurd htold (by simp)
  | some w =>
      cases w with
      | obj told =>
          rw [deepMergeVal_eq]
          dsimp only
          rw [deepUpdateFields_cons, deepUpdateFields_nil]
          cases hwin : alGet told win with
          | none =>
              rw [deepMergeVal_eq]
              dsimp only
              refine ⟨_, alGet_alSet_self _ _ _,
                ⟨[("used", Jv.num n)], by rw [alGet_alSet_self], by simp [alGet]⟩, ?_⟩
              intro k hk told' htold'
              obtain rfl : told = told' := by
                injection htold' with h'
                injection h'
              exact alGet_alSet_ne _ _ _ _ hk
          | some wv =>
              cases wv with
              | obj fwin =>
                  rw [deepMergeVal_eq]
                  dsimp only
                  rw [deepUpdateFields_cons, deepUpdateFields_nil]
                  have hmv : deepMergeVal (alGet fwin "used") (Jv.num n) = Jv.num n := by
                    rw [deepMergeVal_eq]
                    cases hg : alGet fwin "used" with
                    | none => rfl
                    | some wu => cases wu <;> rfl
                  rw [hmv]
                  refine ⟨_, alGet_alSet_self _ _ _,
                    ⟨_, by rw [alGet_alSet_self], by rw [alGet_alSet_self]⟩, ?_⟩
                  intro k hk told' htold'
                  obtain rfl : told = told' := by
                    injection htold' with h'
                    injection h'
                  exact alGet_alSet_ne _ _ _ _ hk
              | null | bool b | num n' | str s | arr xs =>
                  rw [deepMergeVal_eq]
                  dsimp only
                  refine ⟨_, alGet_alSet_self _ _ _,
                    ⟨[("used", Jv.num n)], by rw [alGet_alSet_self], by simp [alGet]⟩, ?_⟩
                  intro k hk told' htold'
                  obtain rfl : told = told' := by
                    injection htold' with h'
                    injection h'
                  exact alGet_alSet_ne _ _ _ _ hk
      | null | bool b | num n' | str s | arr xs =>
          rw [deepMergeVal_eq]
          dsimp only
          refine ⟨[(win, Jv.obj [("used", Jv.num n)])], alGet_alSet_self _ _ _,
            ⟨[("used", Jv.num n)], by simp [alGet], by simp [alGet]⟩, ?_⟩
          intro k hk told htold
          exact absurd htold (by simp)

/-- `update_metrics` always succeeds: the fetched metadata (defaulted or
normalized) always carries a dict-valued `metrics` slot, which the call
deep-merges and writes back. -/
theorem update_metrics_ok (now : String) (store : List SessionRow) (sid : String)
    (upd : List (String × Jv)) :
    ∃ metadata storedMetrics ca br,
      fetchOrDefault store sid now = (metadata, ca, br)
      ∧ alGet metadata "metrics" = some (.obj storedMetrics)
      ∧ update_metrics now store sid upd = .ok (setMetadataWhere (insertOrIgnore store
          ⟨sid, br, alSet metadata "metrics" (.obj (deepUpdateFields storedMetrics upd)),
            ca, now⟩)
          sid (alSet metadata "metrics" (.obj (deepUpdateFields storedMetrics upd))) now) := by
  rcases hfetch : fetchOrDefault store sid now with ⟨metadata, ca, br⟩
  have hmo : ∃ mf, alGet metadata "metrics" = some (.obj mf) := by
    unfold fetchOrDefault at hfetch
    cases hfr : findRow store sid with
    | none =>
        rw [hfr] at hfetch
        dsimp only at hfetch
        simp only [Prod.mk.injEq] at hfetch
        obtain ⟨h1, _, _⟩ := hfetch
        subst h1
        exact ⟨defaultMetricsFields, rfl⟩
    | some row =>
        rw [hfr] at hfetch
        dsimp only at hfetch
        simp only [Prod.mk.injEq] at hfetch
        obtain ⟨h1, _, _⟩ := hfetch
        subst h1
        exact ensure_metrics_is_obj _
  obtain ⟨storedMetrics, hsm⟩ := hmo
  refine ⟨metadata, storedMetrics, ca, br, rfl, hsm, ?_⟩
  unfold update_metrics
  rw [hfetch]
  dsimp only
  rw [alGet_alSetdefault_present _ _ _ _ hsm, hsm]

/--
C6: two successive `update_metrics` calls with disjoint nested keys both
survive — `{"token_usage": {"five_hour": {"used": 10}}}` followed by
`{"token_usage": {"weekly": {"used": 5}}}` leaves a stored metrics
document with `five_hour.used = 10` and `weekly.used = 5`, for every
starting store.
-/
theorem update_metrics_disjoint_deep_merge (now1 now2 : String)
    (store : List SessionRow) (sid : String) :
    ∃ s1 s2 r,
      update_metrics now1 store sid
        [("token_usage", Jv.obj [("five_hour", Jv.obj [("used", Jv.num 10)])])] = .ok s1
      ∧ update_metrics now2 s1 sid
        [("token_usage", Jv.obj [("weekly", Jv.obj [("used", Jv.num 5)])])] = .ok s2
      ∧ findRow s2 sid = some r
      ∧ jvPath (Jv.obj r.metadata) ["metrics", "token_usage", "five_hour", "used"] =
          some (.num 10)
      ∧ jvPath (Jv.obj r.metadata) ["metrics", "token_usage", "weekly", "used"] =
          some (.num 5) := by
  obtain ⟨md1, sm1, ca1, br1, hf1, hsm1, hup1⟩ := update_metrics_ok now1 store sid
    [("token_usage", Jv.obj [("five_hour", Jv.obj [("used", Jv.num 10)])])]
  set M1 := alSet md1 "metrics" (.obj (deepUpdateFields sm1
    [("token_usage", Jv.obj [("five_hour", Jv.obj [("used", Jv.num 10)])])])) with hM1
  set S1 := setMetadataWhere (insertOrIgnore store ⟨sid, br1, M1, ca1, now1⟩)
    sid M1 now1 with hS1
  have hr1 : ∃ r1, findRow S1 sid = some r1 ∧ r1.metadata = M1 := by
    rw [hS1]
    exact ⟨_, findRow_after_write store sid M1 now1 _ rfl, rfl⟩
  obtain ⟨r1, hr1, hr1m⟩ := hr1
  obtain ⟨md2, sm2, ca2, br2, hf2, hsm2, hup2⟩ := update_metrics_ok now2 S1 sid
    [("token_usage", Jv.obj [("weekly", Jv.obj [("used", Jv.num 5)])])]
  have hmd2 : md2 = ensureMetadataDefaults M1 := by
    unfold fetchOrDefault at hf2
    rw [hr1] at hf2
    dsimp only at hf2
    rw [hr1m] at hf2
    simp only [Prod.mk.injEq] at hf2
    exact hf2.1.symm
  subst hmd2
  obtain ⟨tu1, htu1, ⟨fh1, hfh1, hused1⟩, hpres1⟩ := deepUpdateFields_window sm1 "five_hour" 10
  have hM1m : alGet M1 "metrics" = some (.obj (deepUpdateFields sm1
      [("token_usage", Jv.obj [("five_hour", Jv.obj [("used", Jv.num 10)])])])) := by
    rw [hM1]
    exact alGet_alSet_self _ _ _
  obtain ⟨mf', hm', htu'⟩ := ensure_metrics_token_usage M1 _ tu1 hM1m htu1
  have hsm2' : mf' = sm2 := by
    rw [hm'] at hsm2
    injection hsm2 with h'
    injection h'
  subst hsm2'
  obtain ⟨tu2, htu2, ⟨wk2, hwk2, hused2⟩, hpres2⟩ := deepUpdateFields_window mf' "weekly" 5
  have hfh2 : alGet tu2 "five_hour" = alGet (fixWarnings tu1) "five_hour" :=
    hpres2 "five_hour" (by decide) (fixWarnings tu1) htu'
  have hfhfix : alGet (fixWarnings tu1) "five_hour" = alGet tu1 "five_hour" :=
    alGet_fixWarnings_ne tu1 "five_hour" (by decide)
  set M2 := alSet (ensureMetadataDefaults M1) "metrics" (.obj (deepUpdateFields mf'
    [("token_usage", Jv.obj [("weekly", Jv.obj [("used", Jv.num 5)])])])) with hM2
  have hr2 : ∃ r2, findRow (setMetadataWhere (insertOrIgnore S1 ⟨sid, br2, M2, ca2, now2⟩)
      sid M2 now2) sid = some r2 ∧ r2.metadata = M2 :=
    ⟨_, findRow_after_write S1 sid M2 now2 _ rfl, rfl⟩
  obtain ⟨r2, hr2, hr2m⟩ := hr2
  have hM2m : alGet M2 "metrics" = some (.obj (deepUpdateFields mf'
      [("token_usage", Jv.obj [("weekly", Jv.obj [("used", Jv.num 5)])])])) := by
    rw [hM2]
    exact alGet_alSet_self _ _ _
  refine ⟨S1, _, r2, hup1, hup2, hr2, ?_, ?_⟩
  · rw [hr2m]
    simp only [jvPath, jvGet, hM2m, htu2, hfh2, hfhfix, hfh1, hused1]
  · rw [hr2m]
    simp only [jvPath, jvGet, hM2m, htu2, hwk2, hused2]

theorem findRow_rename_map (store : List SessionRow) (oldId newId now : String)
    (hnew : findRow store newId = none) (r : SessionRow)
    (hold : findRow store oldId = some r) :
    findRow (store.map (fun r =>
      if r.session_id = oldId then { r with session_id := newId, updated_at := now }
      else r)) newId = some { r with session_id := newId, updated_at := now } := by
  induction store with
  | nil => simp [findRow] at hold
  | cons x rest ih =>
      by_cases hx : x.session_id = oldId
      · unfold findRow at hold ⊢
        rw [List.find?_cons_of_pos _ (by simp [hx])] at hold
        injection hold with hold
        subst hold
        simp only [List.map]
        rw [if_pos hx]
        rw [List.find?_cons_of_pos _ (by simp)]
      · unfold findRow at hold hnew ⊢
        rw [List.find?_cons_of_neg _ (by simp [hx])] at hold
        have hxnew : ¬ x.session_id = newId := by
          intro hnn
          rw [List.find?_cons_of_pos _ (by simp [hnn])] at hnew
          exact Option.noConfusion hnew
        rw [List.find?_cons_of_neg _ (by simp [hxnew])] at hnew
        simp only [List.map]
        rw [if_neg hx]
        rw [List.find?_cons_of_neg _ (by simp [hxnew])]
        exact ih hnew hold

/--
C7 counterexample: the claim quantifies over every pair of ids, but
`rename_session` short-circuits equal ids to `True` even though the
target id exists; and a successful rename does not preserve every other
field — `updated_at` is refreshed (`t0` becomes `t1` below).
-/
theorem rename_session_counterexample :
    (rename_session "t1" [⟨"S1", none, [], "t0", "t0"⟩] "S1" "S1" =
        (true, [⟨"S1", none, [], "t0", "t0"⟩])
      ∧ session_exists [⟨"S1", none, [], "t0", "t0"⟩] "S1" = true)
    ∧ rename_session "t1" [⟨"S1", none, [], "t0", "t0"⟩] "S1" "S2" =
        (true, [⟨"S2", none, [], "t0", "t1"⟩]) :=
  ⟨⟨rfl, rfl⟩, rfl⟩

/--
C7 (amended): for distinct ids, renaming onto an existing target returns
`false` and leaves the store entirely unchanged; renaming an existing
session to a fresh id returns `true` and re-keys the row, preserving
branch, metadata and creation time while refreshing `updated_at` to the
operation time; equal ids short-circuit to `true` with no change.
-/
theorem rename_session_spec (now oldId newId : String) (store : List SessionRow) :
    (oldId = newId → rename_session now store oldId newId = (true, store))
    ∧ (oldId ≠ newId → session_exists store newId = true →
        rename_session now store oldId newId = (false, store))
    ∧ (oldId ≠ newId → session_exists store newId = false →
        ∀ r, findRow store oldId = some r →
          (rename_session now store oldId newId).1 = true
          ∧ findRow (rename_session now store oldId newId).2 newId =
              some { r with session_id := newId, updated_at := now }) := by
  refine ⟨?_, ?_, ?_⟩
  · intro h
    unfold rename_session
    rw [if_pos h]
  · intro h hex
    unfold session_exists at hex
    unfold rename_session
    rw [if_neg h, if_pos hex]
  · intro h hex r hold
    unfold session_exists at hex
    have hnone : findRow store newId = none := by
      cases hfr : findRow store newId with
      | none => rfl
      | some _ => rw [hfr] at hex; simp at hex
    unfold rename_session
    rw [if_neg h, if_neg (by simp [hnone])]
    constructor
    · have hold' : store.find? (fun x => decide (x.session_id = oldId)) = some r := hold
      have hmem : r ∈ store.filter (fun x => x.session_id = oldId) := by
        rw [List.mem_filter]
        refine ⟨List.mem_of_find?_eq_some hold', ?_⟩
        have hpr := List.find?_some hold'
        simpa using hpr
      have hpos : 0 < (store.filter (fun x => x.session_id = oldId)).length :=
        List.length_pos.mpr (List.ne_nil_of_mem hmem)
      simp [hpos]
    · exact findRow_rename_map store oldId newId now hnone r hold

/-- Witness for the amended C7 theorem: renaming the only session. -/
theorem rename_session_spec_witness :
    (rename_session "t1" [⟨"S1", none, [], "t0", "t0"⟩] "S1" "S2").1 = true
    ∧ findRow (rename_session "t1" [⟨"S1", none, [], "t0", "t0"⟩] "S1" "S2").2 "S2" =
        some ⟨"S2", none, [], "t0", "t1"⟩ :=
  (rename_session_spec "t1" "S1" "S2" [⟨"S1", none, [], "t0", "t0"⟩]).2.2
    (by decide) rfl _ rfl

/-!
## TaskWatcher (`src/belya_agents/head_belya.py`)

`TaskRepository.load_tasks` hands `_poll` a list of records, each with a
`taskId` string and a `history` list.  A history entry is a dict the
watcher reads through `.get`; `{}` is falsy and skipped by the
`if not latest_entry` guard (a truthy non-dict entry would raise, which
`_run_cycle` catches — outside this model).  The `_last_seen_completion`
dict is only ever read through `.get`, which returns `None` both for an
absent key and a stored `None`, so it is modelled as a function.
-/

/-- A history entry as the watcher sees it: the empty dict, or a dict
with the six fields the watcher reads (each possibly absent/None). -/
inductive WHistEntry where
  | emptyDict : WHistEntry
  | entry (status timestamp : Option String)
      (resultPreview result_preview result_summary result : Option String) : WHistEntry
deriving DecidableEq, Repr

/-- `entry.get("status")`. -/
def wStatus : WHistEntry → Option String
  | .emptyDict => none
  | .entry s _ _ _ _ _ => s

/-- `entry.get("timestamp")`. -/
def wTimestamp : WHistEntry → Option String
  | .emptyDict => none
  | .entry _ ts _ _ _ _ => ts

/-- Python truthiness of the entry dict. -/
def wTruthy : WHistEntry → Bool
  | .emptyDict => false
  | .entry _ _ _ _ _ _ => true

/-- Python `a or b` for optional strings (`None` and `""` are falsy). -/
def pyOrStr : Option String → Option String → Option String
  | some s, b => if s = "" then b else some s
  | none, b => b

/-- `_extract_result_preview`. -/
def extractResultPreview : WHistEntry → Option String
  | .emptyDict => none
  | .entry _ _ rp rps rsum r => pyOrStr rp (pyOrStr rps (pyOrStr rsum r))

/-- One record of `TaskRepository.load_tasks` output. -/
structure WTask where
  taskId : String
  history : List WHistEntry
deriving DecidableEq, Repr

/-- `status in TaskWatcher.TERMINAL_STATUSES`. -/
def isTerminalStatus : Option String → Bool
  | some s => s = "completed" || s = "failed"
  | none => false

/-- `timestamp or 'unknown'`. -/
def timestampOrUnknown : Option String → String
  | some s => if s = "" then "unknown" else s
  | none => "unknown"

/-- `f"{status}:{timestamp or 'unknown'}:{len(history)}"` when the latest
entry is terminal, else `None`. -/
def completionSignature (e : WHistEntry) (histLen : Nat) : Option String :=
  if isTerminalStatus (wStatus e) then
    some ((wStatus e).getD "" ++ ":" ++ timestampOrUnknown (wTimestamp e) ++ ":" ++
      toString histLen)
  else none

/-- `TaskCompletionEvent`. -/
structure WCompletionEvent where
  task_id : String
  status : String
  timestamp : Option String
  result_preview : Option String
deriving DecidableEq, Repr

/-- The watcher's `_last_seen_completion` map as observed through `.get`. -/
def WState := String → Option String

/-- Python truthiness of an optional string. -/
def pyTruthy : Option String → Bool
  | some s => s ≠ ""
  | none => false

/-- The body of the `for task in tasks` loop of `TaskWatcher._poll` for
one task: skip falsy ids, skip (and `setdefault`) empty history or a
falsy latest entry, otherwise record the signature and emit when the
conjunction `not bootstrap and is_terminal and completion_signature and
completion_signature != previous_signature` holds. -/
def pollTask (bootstrap : Bool) (σ : WState) (t : WTask) :
    WState × List WCompletionEvent :=
  if t.taskId = "" then (σ, [])
  else
    match t.history.getLast? with
    | none => (σ, [])
    | some latest =>
        if wTruthy latest then
          let sig := completionSignature latest t.history.length
          let prev := σ t.taskId
          let σ' : WState := fun id => if id = t.taskId then sig else σ id
          if !bootstrap && isTerminalStatus (wStatus latest) && pyTruthy sig
              && sig ≠ prev then
            (σ', [{ task_id := t.taskId, status := (wStatus latest).getD "",
                    timestamp := wTimestamp latest,
                    result_preview := extractResultPreview latest }])
          else (σ', [])
        else (σ, [])

/-- `TaskWatcher._poll` over the loaded task list. -/
def pollStep (bootstrap : Bool) : List WTask → WState → WState × List WCompletionEvent
  | [], σ => (σ, [])
  | t :: rest, σ =>
      let step := pollTask bootstrap σ t
      let next := pollStep bootstrap rest step.1
      (next.1, step.2 ++ next.2)

/-- The emission condition of `_poll` for one task against a baseline. -/
def isNewCompletion (σ : WState) (t : WTask) : Bool :=
  t.taskId ≠ "" &&
    (match t.history.getLast? with
     | none => false
     | some latest =>
         wTruthy latest && isTerminalStatus (wStatus latest)
           && pyTruthy (completionSignature latest t.history.length)
           && (completionSignature latest t.history.length ≠ σ t.taskId))

/-- The event `_poll` emits for a task (meaningful when its latest entry
exists). -/
def taskEvent (t : WTask) : WCompletionEvent :=
  match t.history.getLast? with
  | some latest =>
      { task_id := t.taskId, status := (wStatus latest).getD "",
        timestamp := wTimestamp latest,
        result_preview := extractResultPreview latest }
  | none => { task_id := t.taskId, status := "", timestamp := none, result_preview := none }

/-- The baseline recorded for a task after a poll: the computed signature
when the task was processed, the old baseline when it was skipped. -/
def postSig (σ : WState) (t : WTask) : Option String :=
  if t.taskId = "" then σ t.taskId
  else
    match t.history.getLast? with
    | none => σ t.taskId
    | some latest =>
        if wTruthy latest then completionSignature latest t.history.length
        else σ t.taskId

theorem pollTask_bootstrap_events (σ : WState) (t : WTask) :
    (pollTask true σ t).2 = [] := by
  unfold pollTask
  by_cases h0 : t.taskId = ""
  · simp [h0]
  · simp only [h0, if_false]
    cases t.history.getLast? with
    | none => rfl
    | some latest =>
        by_cases htr : wTruthy latest <;> simp [htr]

theorem pollTask_state_self (b : Bool) (σ : WState) (t : WTask) :
    (pollTask b σ t).1 t.taskId = postSig σ t := by
  unfold pollTask postSig
  by_cases h0 : t.taskId = ""
  · simp [h0]
  · simp only [h0, if_false]
    cases t.history.getLast? with
    | none => rfl
    | some latest =>
        by_cases htr : wTruthy latest
        · simp only [htr, if_true]
          split <;> simp
        · simp [htr]

theorem pollTask_state_other (b : Bool) (σ : WState) (t : WTask) (id : String)
    (h : id ≠ t.taskId) : (pollTask b σ t).1 id = σ id := by
  unfold pollTask
  by_cases h0 : t.taskId = ""
  · simp [h0]
  · simp only [h0, if_false]
    cases t.history.getLast? with
    | none => rfl
    | some latest =>
        by_cases htr : wTruthy latest
        · simp only [htr, if_true]
          split <;> simp [h]
        · simp [htr]

theorem pollTask_events_false (σ : WState) (t : WTask) :
    (pollTask false σ t).2 =
      if isNewCompletion σ t then [taskEvent t] else [] := by
  unfold pollTask isNewCompletion taskEvent
  by_cases h0 : t.taskId = ""
  · simp [h0]
  · simp only [h0, if_false, ne_eq, not_false_eq_true, decide_True, Bool.true_and]
    cases t.history.getLast? with
    | none => simp
    | some latest =>
        by_cases htr : wTruthy latest
        · simp only [htr, Bool.true_and, if_true, Bool.not_false]
          split_ifs <;> rfl
        · simp [htr]

theorem postSig_congr (σ σ' : WState) (t : WTask) (h : σ t.taskId = σ' t.taskId) :
    postSig σ t = postSig σ' t := by
  unfold postSig
  rw [h]

theorem isNewCompletion_congr (σ σ' : WState) (t : WTask)
    (h : σ t.taskId = σ' t.taskId) : isNewCompletion σ t = isNewCompletion σ' t := by
  unfold isNewCompletion
  rw [h]

theorem pollStep_state_not_mem (b : Bool) (tasks : List WTask) (σ : WState) (id : String)
    (h : id ∉ tasks.map WTask.taskId) : (pollStep b tasks σ).1 id = σ id := by
  induction tasks generalizing σ with
  | nil => rfl
  | cons t rest ih =>
      simp only [List.map_cons, List.mem_cons, not_or] at h
      obtain ⟨h1, h2⟩ := h
      simp only [pollStep]
      rw [ih _ h2, pollTask_state_other b σ t id h1]

theorem pollStep_state (b : Bool) (tasks : List WTask) (σ : WState)
    (hids : (tasks.map WTask.taskId).Nodup) :
    ∀ t ∈ tasks, (pollStep b tasks σ).1 t.taskId = postSig σ t := by
  induction tasks generalizing σ with
  | nil => intro t ht; cases ht
  | cons t' rest ih =>
      intro t ht
      simp only [List.map_cons, List.nodup_cons] at hids
      obtain ⟨hnotin, hnd⟩ := hids
      rcases List.mem_cons.mp ht with rfl | hmem
      · simp only [pollStep]
        rw [pollStep_state_not_mem b rest _ _ hnotin]
        exact pollTask_state_self b σ t
      · simp only [pollStep]
        rw [ih _ hnd t hmem]
        have hne : t.taskId ≠ t'.taskId := by
          intro heq
          exact hnotin (heq ▸ List.mem_map_of_mem WTask.taskId hmem)
        exact postSig_congr _ _ t (pollTask_state_other b σ t' t.taskId hne)

theorem pollStep_events_bootstrap (tasks : List WTask) (σ : WState) :
    (pollStep true tasks σ).2 = [] := by
  induction tasks generalizing σ with
  | nil => rfl
  | cons t rest ih =>
      simp only [pollStep]
      rw [pollTask_bootstrap_events, ih]
      rfl

theorem filterMap_congr_of_mem {α β : Type} (l : List α) (f g : α → Option β)
    (h : ∀ a ∈ l, f a = g a) : l.filterMap f = l.filterMap g := by
  induction l with
  | nil => rfl
  | cons a rest ih =>
      simp only [List.filterMap_cons]
      rw [h a (by simp), ih (fun a ha => h a (by simp [ha]))]

theorem pollStep_events_false (tasks : List WTask) (σ : WState)
    (hids : (tasks.map WTask.taskId).Nodup) :
    (pollStep false tasks σ).2 =
      tasks.filterMap (fun t =>
        if isNewCompletion σ t then some (taskEvent t) else none) := by
  induction tasks generalizing σ with
  | nil => rfl
  | cons t rest ih =>
      simp only [List.map_cons, List.nodup_cons] at hids
      obtain ⟨hnotin, hnd⟩ := hids
      simp only [pollStep, List.filterMap_cons]
      rw [pollTask_events_false σ t, ih _ hnd]
      have hcongr : rest.filterMap (fun u =>
            if isNewCompletion ((pollTask false σ t).1) u then some (taskEvent u) else none)
          = rest.filterMap (fun u =>
            if isNewCompletion σ u then some (taskEvent u) else none) := by
        apply filterMap_congr_of_mem
        intro u hu
        have hne : u.taskId ≠ t.taskId := by
          intro heq
          exact hnotin (heq ▸ List.mem_map_of_mem WTask.taskId hu)
        rw [isNewCompletion_congr _ σ u (pollTask_state_other false σ t u.taskId hne)]
      rw [hcongr]
      cases hn : isNewCompletion σ t <;> simp

theorem isNewCompletion_of_postSig (σ σ' : WState) (t : WTask)
    (h : σ' t.taskId = postSig σ t) : isNewCompletion σ' t = false := by
  unfold isNewCompletion
  unfold postSig at h
  by_cases h0 : t.taskId = ""
  · simp [h0]
  · simp only [h0, if_false] at h
    cases hl : t.history.getLast? with
    | none => simp [hl]
    | some latest =>
        rw [hl] at h
        by_cases htr : wTruthy latest
        · simp only [htr, if_true] at h
          simp [hl, h]
        · simp [hl, htr]

theorem completionSignature_truthy (latest : WHistEntry) (len : Nat)
    (h : isTerminalStatus (wStatus latest) = true) :
    pyTruthy (completionSignature latest len) = true := by
  unfold completionSignature
  rw [if_pos h]
  unfold pyTruthy
  rw [decide_eq_true_eq]
  intro heq
  have hlen := congrArg String.length heq
  simp only [String.length_append] at hlen
  have hc : (":" : String).length = 1 := rfl
  have he : ("" : String).length = 0 := rfl
  omega

theorem wTruthy_of_terminal (latest : WHistEntry)
    (h : isTerminalStatus (wStatus latest) = true) : wTruthy latest = true := by
  cases latest with
  | emptyDict => simp [wStatus, isTerminalStatus] at h
  | entry s ts a b c d => rfl

/--
C1: on its bootstrap pass the watcher emits no events and only seeds the
per-task signature baseline; on any later pass an event is emitted for a
task exactly when its latest history entry is terminal and its completion
signature differs from the recorded baseline; after any pass the baseline
equals the computed signature, so immediately re-polling the same task
list emits nothing — the same completion is never reported twice.
-/
theorem watcher_completion_detection (tasks : List WTask) (σ : WState)
    (hids : (tasks.map WTask.taskId).Nodup) :
    (pollStep true tasks σ).2 = []
    ∧ (∀ b, ∀ t ∈ tasks, ((pollStep b tasks σ).1) t.taskId = postSig σ t)
    ∧ (pollStep false tasks σ).2 =
        tasks.filterMap (fun t =>
          if isNewCompletion σ t then some (taskEvent t) else none)
    ∧ (∀ t, t.taskId ≠ "" →
        (isNewCompletion σ t = true ↔
          ∃ latest, t.history.getLast? = some latest
            ∧ isTerminalStatus (wStatus latest) = true
            ∧ completionSignature latest t.history.length ≠ σ t.taskId))
    ∧ (∀ b, (pollStep false tasks ((pollStep b tasks σ).1)).2 = []) := by
  refine ⟨pollStep_events_bootstrap tasks σ,
    fun b t ht => pollStep_state b tasks σ hids t ht,
    pollStep_events_false tasks σ hids, ?_, ?_⟩
  · intro t h0
    unfold isNewCompletion
    simp only [h0, ne_eq, not_false_eq_true, decide_True, Bool.true_and]
    constructor
    · intro h
      cases hl : t.history.getLast? with
      | none => rw [hl] at h; simp at h
      | some latest =>
          rw [hl] at h
          simp only [Bool.and_eq_true, decide_eq_true_eq] at h
          exact ⟨latest, rfl, h.1.1.2, h.2⟩
    · rintro ⟨latest, hl, hterm, hsig⟩
      rw [hl]
      simp only [Bool.and_eq_true, decide_eq_true_eq]
      exact ⟨⟨⟨wTruthy_of_terminal latest hterm, hterm⟩,
        completionSignature_truthy latest t.history.length hterm⟩, hsig⟩
  · intro b
    rw [pollStep_events_false tasks _ hids]
    rw [List.filterMap_eq_nil]
    intro t ht
    rw [isNewCompletion_of_postSig σ _ t (pollStep_state b tasks σ hids t ht)]
    rfl

/-- Witness tasks: one task already completed before the first poll. -/
def demoWTasks : List WTask :=
  [⟨"T1", [WHistEntry.entry (some "completed") (some "ts") none none none (some "done")]⟩]

/-- A fresh watcher baseline (nothing seen yet). -/
def demoWState : WState := fun _ => none

/-- Witness for C1 at a concrete task list and fresh baseline. -/
theorem watcher_completion_detection_witness :
    (pollStep true demoWTasks demoWState).2 = []
    ∧ (∀ b, ∀ t ∈ demoWTasks, ((pollStep b demoWTasks demoWState).1) t.taskId =
        postSig demoWState t)
    ∧ (pollStep false demoWTasks demoWState).2 =
        demoWTasks.filterMap (fun t =>
          if isNewCompletion demoWState t then some (taskEvent t) else none)
    ∧ (∀ t, t.taskId ≠ "" →
        (isNewCompletion demoWState t = true ↔
          ∃ latest, t.history.getLast? = some latest
            ∧ isTerminalStatus (wStatus latest) = true
            ∧ completionSignature latest t.history.length ≠ demoWState t.taskId))
    ∧ (∀ b, (pollStep false demoWTasks ((pollStep b demoWTasks demoWState).1)).2 = []) :=
  watcher_completion_detection demoWTasks demoWState (by decide)

/-!
## Completion-event consumer (`HeadBelyaAgent._process_completion_events`)

The consumer awaits the first queued event, drains the rest with
non-blocking `get_nowait` calls until `QueueEmpty`, invokes the notifier
once with the whole batch, and repeats.  One iteration is modelled as a
function of the events queued at wake-up time.
-/

/-- The `get_nowait` drain loop: take queued events until `QueueEmpty`,
returning the drained events and what remains queued. -/
def drainNowait : List WCompletionEvent → List WCompletionEvent × List WCompletionEvent
  | [] => ([], [])
  | e :: rest =>
      let step := drainNowait rest
      (e :: step.1, step.2)

/-- One iteration of `_process_completion_events`: `none` when the queue
is empty (the consumer keeps blocking in `await queue.get()`); otherwise
the single batch handed to one notifier invocation, and the queue left
behind. -/
def consumerIteration (queue : List WCompletionEvent) :
    Option (List WCompletionEvent × List WCompletionEvent) :=
  match queue with
  | [] => none
  | primary :: rest =>
      let step := drainNowait rest
      some (primary :: step.1, step.2)

theorem drainNowait_eq (q : List WCompletionEvent) : drainNowait q = (q, []) := by
  induction q with
  | nil => rfl
  | cons e rest ih =>
      unfold drainNowait
      rw [ih]

/--
C2: when the consumer wakes with events queued, one loop iteration hands
the notifier exactly one batch holding every queued event in arrival
order and leaves the queue empty — two tasks completing within the same
polling interval produce a single notifier invocation with a batch of
two events, never two invocations.
-/
theorem consumer_batches_whole_queue (queue : List WCompletionEvent)
    (h : queue ≠ []) : consumerIteration queue = some (queue, []) := by
  cases queue with
  | nil => exact absurd rfl h
  | cons e rest =>
      unfold consumerIteration
      dsimp only
      rw [drainNowait_eq]

/-- Witness for C2: two events queued in the same interval come out as
one batch of two. -/
theorem consumer_batches_whole_queue_witness :
    consumerIteration [⟨"T1", "completed", none, none⟩, ⟨"T2", "failed", none, none⟩] =
      some ([⟨"T1", "completed", none, none⟩, ⟨"T2", "failed", none, none⟩], []) :=
  consumer_batches_whole_queue _ (by decide)

/-!
## MetricsAggregator (`src/tools/metrics_tools.py`)

Numeric leaves are modelled as integers (every number the mixin stores
passes through `int(...)`).
-/

/-- `SessionMetricsMixin._estimate_tokens`: space-join the truthy texts,
0 for an empty join, else `ceil(len/4)` (written `(len + 3) / 4`),
clamped at 0 by `max`. -/
def estimateTokens (texts : List (Option String)) : Int :=
  let combined := " ".intercalate ((texts.filterMap id).filter (fun s => s ≠ ""))
  if combined = "" then 0
  else max (((combined.length + 3) / 4 : Nat) : Int) 0

/-- Python `term in path_lower` (substring containment on the lowered path). -/
def pyInStr (term path : String) : Bool := decide (term.toList <:+: path.toList)

/-- `all(term in path_lower for term in terms)`. -/
def termsMatch (terms : List String) (path : String) : Bool :=
  terms.all (fun term => pyInStr term path.toLower)

/-- `SessionMetricsMixin._find_numeric_by_terms`: the first entry (in
flattening order) matching the first term set that matches anything. -/
def findNumericByTerms (entries : List (String × Int)) :
    List (List String) → Option Int
  | [] => none
  | terms :: rest =>
      match entries.find? (fun p => termsMatch terms p.1) with
      | some p => some p.2
      | none => findNumericByTerms entries rest

/-- The delta-token term sets of `_extract_usage_metrics`. -/
def deltaTermSets : List (List String) :=
  [["delta", "token"], ["token", "delta"], ["tokens", "used"], ["used", "token"]]

/-- The delta-token value `_extract_usage_metrics` settles on: the first
matching flattened numeric entry, else
`self._estimate_tokens(prompt, output_text)`. -/
def extractDeltaTokens (flatEntries : List (String × Int)) (prompt output : String) : Int :=
  match findNumericByTerms flatEntries deltaTermSets with
  | some v => v
  | none => estimateTokens [some prompt, some output]

/--
C9 counterexample: with no delta-token signal and an empty prompt, the
code estimates from the output alone (`ceil(4/4) = 1`), while the claimed
formula `ceil(len(prompt + " " + output)/4)` counts the joining space
(`ceil(5/4) = 2`) — `_estimate_tokens` drops falsy texts before joining.
-/
theorem estimate_tokens_counterexample :
    extractDeltaTokens [] "" "abcd" = 1
    ∧ ((("" ++ " " ++ "abcd").length + 3) / 4 : Nat) = 2 :=
  ⟨rfl, rfl⟩

/--
C9 (amended): when no delta-token signal is found the delta is
`_estimate_tokens(prompt, output)` — `ceil(len(joined)/4)` where `joined`
space-joins only the non-empty texts (0 when both are empty); this equals
the claimed `ceil(len(prompt + " " + output)/4)` whenever both prompt and
output are non-empty, and the estimate is always non-negative.
-/
theorem estimate_tokens_spec (prompt output : String)
    (flatEntries : List (String × Int)) :
    (findNumericByTerms flatEntries deltaTermSets = none →
      extractDeltaTokens flatEntries prompt output =
        estimateTokens [some prompt, some output])
    ∧ (prompt ≠ "" → output ≠ "" →
      estimateTokens [some prompt, some output] =
        (((prompt ++ " " ++ output).length + 3) / 4 : Nat))
    ∧ 0 ≤ estimateTokens [some prompt, some output] := by
  refine ⟨?_, ?_, ?_⟩
  · intro h
    unfold extractDeltaTokens
    rw [h]
  · intro hp ho
    unfold estimateTokens
    simp only [List.filterMap, Option.toList, List.filter, hp, ho, decide_True,
      ne_eq, not_false_eq_true]
    have hj : " ".intercalate [prompt, output] = prompt ++ " " ++ output := rfl
    rw [hj]
    have hne : prompt ++ " " ++ output ≠ "" := by
      intro heq
      have hlen := congrArg String.length heq
      simp only [String.length_append] at hlen
      have hc : (" " : String).length = 1 := rfl
      have he : ("" : String).length = 0 := rfl
      omega
    rw [if_neg hne]
    omega
  · unfold estimateTokens
    dsimp only
    split
    · exact le_refl 0
    · exact le_max_right _ _

/-- Concrete instance of the amended estimate law: with no delta-token
signal, prompt `"ab"` and output `"cd"` estimate to `(5 + 3) / 4 = 2`. -/
theorem estimate_tokens_spec_witness :
    extractDeltaTokens [] "ab" "cd" = estimateTokens [some "ab", some "cd"]
    ∧ estimateTokens [some "ab", some "cd"]
        = ((("ab" ++ " " ++ "cd").length + 3) / 4 : Nat)
    ∧ 0 ≤ estimateTokens [some "ab", some "cd"] :=
  ⟨(estimate_tokens_spec "ab" "cd" []).1 rfl,
   (estimate_tokens_spec "ab" "cd" []).2.1 (by decide) (by decide),
   (estimate_tokens_spec "ab" "cd" []).2.2⟩

/-!
## Usage-threshold warnings (`SessionMetricsMixin._maybe_emit_usage_warnings`)

`self.utilization_warning_thresholds = (80, 90, 95)` comes from
`HeadBelyaAgent.__init__`.  The float `percent = used / limit * 100` is
modelled exactly over `ℚ`; a warning message is abstracted to its window
label and threshold (the source formats percent, used and limit into the
text).  `int(...)` of a stored string is not modelled (treated as the
caught `ValueError` path).
-/

/-- `HeadBelyaAgent.utilization_warning_thresholds`. -/
def utilizationWarningThresholds : List Int := [80, 90, 95]

/-- The `for threshold in ... break` loop for one window: the first
threshold the percentage reaches that is not already triggered. -/
def firstWarnThreshold (thresholds : List Int) (percent : ℚ) (triggered : List Int) :
    Option Int :=
  match thresholds with
  | [] => none
  | t :: rest =>
      if percent ≥ (t : ℚ) ∧ t ∉ triggered then some t
      else firstWarnThreshold rest percent triggered

/-- A warning message, abstracted to its window label and threshold. -/
structure WarnMsg where
  label : String
  threshold : Int
deriving DecidableEq, Repr

/-- `int(x) if x is not None else None`, with `TypeError`/`ValueError`
collapsing to `None` via the `except` clause. -/
def jvToInt? : Option Jv → Option Int
  | some (.num n) => some n
  | some (.bool b) => some (if b then 1 else 0)
  | _ => none

/-- Per-session warning-cache dict (window key to triggered levels). -/
def cacheGet (c : List (String × List Int)) (k : String) : Option (List Int) :=
  (c.find? (fun p => p.1 = k)).map Prod.snd

def cacheSet (c : List (String × List Int)) (k : String) (v : List Int) :
    List (String × List Int) :=
  match c with
  | [] => [(k, v)]
  | (k', v') :: rest => if k' = k then (k', v) :: rest else (k', v') :: cacheSet rest k v

def cacheSetdefault (c : List (String × List Int)) (k : String) (v : List Int) :
    List (String × List Int) :=
  match cacheGet c k with
  | some _ => c
  | none => c ++ [(k, v)]

/-- The per-window body of `_maybe_emit_usage_warnings`: skip non-dict
window data, unusable or non-positive limits and falsy used counts;
otherwise warn for the first unrecorded threshold reached, persisting it
(persistence failures are caught and logged) and caching it. -/
def processWindow (now : String) (store : List SessionRow) (sid : String)
    (window label : String) (windowData : Option Jv) (triggered : List Int) :
    List SessionRow × List Int × List WarnMsg :=
  match windowData with
  | some (.obj wd) =>
      match jvToInt? (alGet wd "limit"), jvToInt? (alGet wd "used") with
      | some li, some ui =>
          if li = 0 ∨ ui = 0 ∨ li ≤ 0 then (store, triggered, [])
          else
            let percent : ℚ := (ui : ℚ) / (li : ℚ) * 100
            match firstWarnThreshold utilizationWarningThresholds percent triggered with
            | some t =>
                let store1 :=
                  match record_usage_warning now store sid window t with
                  | .ok s => s
                  | .error _ => store
                (store1, triggered ++ [t], [⟨label, t⟩])
            | none => (store, triggered, [])
      | _, _ => (store, triggered, [])
  | _ => (store, triggered, [])

/-- `SessionMetricsMixin._maybe_emit_usage_warnings` for one session:
load and normalize the record, snapshot `token_usage` once, process the
five-hour then the weekly window against the per-session warning cache,
and return the joined messages (`none` when there are none). -/
def maybeEmitUsageWarnings (now : String) (store : List SessionRow) (sid : String)
    (sidCache : List (String × List Int)) :
    Option (List WarnMsg) × List SessionRow × List (String × List Int) :=
  match findRow store sid with
  | none => (none, store, sidCache)
  | some row =>
      let metadata := ensureMetadataDefaults row.metadata
      match (alGet metadata "metrics").getD (Jv.obj []) with
      | .obj mf =>
          match (alGet mf "token_usage").getD (Jv.obj []) with
          | .obj tu =>
              let c1 := cacheSetdefault sidCache "five_hour" []
              let t5 := (cacheGet c1 "five_hour").getD []
              let s5 := processWindow now store sid "five_hour" "5-hour" (alGet tu "five_hour") t5
              let c2 := cacheSet c1 "five_hour" s5.2.1
              let c3 := cacheSetdefault c2 "weekly" []
              let t7 := (cacheGet c3 "weekly").getD []
              let s7 := processWindow now s5.1 sid "weekly" "weekly" (alGet tu "weekly") t7
              let c4 := cacheSet c3 "weekly" s7.2.1
              let messages := s5.2.2 ++ s7.2.2
              (if messages.isEmpty then none else some messages, s7.1, c4)
          | _ => (none, store, sidCache)
      | _ => (none, store, sidCache)

/-- A store holding one session at 85 of 100 five-hour tokens with no
recorded warnings. -/
def demoUsageStore : List SessionRow :=
  [⟨"S1", none,
    [("metrics", Jv.obj [("token_usage", Jv.obj
      [("five_hour", Jv.obj [("used", Jv.num 85), ("limit", Jv.num 100)])])])],
    "t0", "t0"⟩]

/--
C8: within one call, each window reports only the first threshold (in
the order 80, 90, 95) that the usage percentage reaches and that is not
already recorded, and the threshold iteration stops there for that
window; a session at 85 of 100 five-hour tokens with no prior warnings
produces exactly one message — for threshold 80, not 90 or 95 — and the
persisted `warnings.five_hour` becomes `[80]`.
-/
theorem usage_warning_first_unrecorded :
    (∀ thresholds (percent : ℚ) triggered,
      firstWarnThreshold thresholds percent triggered =
        thresholds.find? (fun (t : Int) => decide (percent ≥ (t : ℚ) ∧ t ∉ triggered)))
    ∧ (maybeEmitUsageWarnings "t1" demoUsageStore "S1" []).1 = some [⟨"5-hour", 80⟩]
    ∧ warningsAt (maybeEmitUsageWarnings "t1" demoUsageStore "S1" []).2.1 "S1" "five_hour"
        = some (.arr [Jv.num 80])
    ∧ cacheGet (maybeEmitUsageWarnings "t1" demoUsageStore "S1" []).2.2 "five_hour"
        = some [80] := by
  have hfw : firstWarnThreshold utilizationWarningThresholds
      (((85 : Int) : ℚ) / ((100 : Int) : ℚ) * 100) [] = some 80 := by
    rw [show ((85 : Int) : ℚ) / ((100 : Int) : ℚ) * 100 = (85 : ℚ) from by norm_num]
    decide
  have hpw0 : processWindow "t1" demoUsageStore "S1" "five_hour" "5-hour"
      (some (Jv.obj [("used", Jv.num 85), ("limit", Jv.num 100)])) [] =
      (match firstWarnThreshold utilizationWarningThresholds
          (((85 : Int) : ℚ) / ((100 : Int) : ℚ) * 100) [] with
       | some t =>
          ((match record_usage_warning "t1" demoUsageStore "S1" "five_hour" t with
            | .ok s => s
            | .error _ => demoUsageStore),
            ([] : List Int) ++ [t], [(⟨"5-hour", t⟩ : WarnMsg)])
       | none => (demoUsageStore, ([] : List Int), ([] : List WarnMsg))) := rfl
  rw [hfw] at hpw0
  dsimp only at hpw0
  refine ⟨?_, ?_, ?_, ?_⟩
  · intro ths percent trig
    induction ths with
    | nil => rfl
    | cons t rest ih =>
        unfold firstWarnThreshold
        by_cases h : percent ≥ (t : ℚ) ∧ t ∉ trig
        · rw [if_pos h, List.find?_cons_of_pos _ (by simpa using h)]
        · rw [if_neg h, List.find?_cons_of_neg _ (by simpa using h), ih]
  · show (if ((processWindow "t1" demoUsageStore "S1" "five_hour" "5-hour"
        (some (Jv.obj [("used", Jv.num 85), ("limit", Jv.num 100)])) []).2.2
        ++ ([] : List WarnMsg)).isEmpty then none
      else some ((processWindow "t1" demoUsageStore "S1" "five_hour" "5-hour"
        (some (Jv.obj [("used", Jv.num 85), ("limit", Jv.num 100)])) []).2.2
        ++ ([] : List WarnMsg))) = some [⟨"5-hour", 80⟩]
    rw [hpw0]
    rfl
  · show warningsAt (processWindow "t1" demoUsageStore "S1" "five_hour" "5-hour"
        (some (Jv.obj [("used", Jv.num 85), ("limit", Jv.num 100)])) []).1
      "S1" "five_hour" = some (.arr [Jv.num 80])
    rw [hpw0]
    rfl
  · show cacheGet
      [("five_hour", (processWindow "t1" demoUsageStore "S1" "five_hour" "5-hour"
        (some (Jv.obj [("used", Jv.num 85), ("limit", Jv.num 100)])) []).2.1),
       ("weekly", ([] : List Int))] "five_hour" = some [80]
    rw [hpw0]
    rfl

end Belya
